import Mathlib

/-!
Verification of the Arkiv SDK transaction codec, event-watch engine and
query pagination iterator, shallowly embedded from the Python sources
(`src/arkiv/utils.py`, `src/arkiv/events.py`, `src/arkiv/query.py`,
`src/arkiv/types.py`, `src/arkiv/contract.py`).

Python strings are `String`, `bytes` are `List Nat` (each element < 256),
Python `int` is `Int` (or `Nat` where the source value is an unsigned
count), raised exceptions are `Except String`, and `dict[str, V]` is an
insertion-ordered association list with pairwise-distinct keys, which is
how CPython dicts behave.
-/

namespace Arkiv

/-! ## Entity-key codec (`utils.py`: `to_entity_key`, `entity_key_to_bytes`)

`Web3.to_hex(int)` renders the integer as `0x` followed by the minimal
lowercase hex digits (`0x0` for zero); `to_entity_key` left-pads the digit
part with zeros to 64 digits (`zfill`) when the whole string is shorter
than 66 characters.  `bytes.fromhex` parses consecutive pairs of hex
digits into bytes and fails on an odd-length or non-hex input. -/

/-- Lowercase hex digit character for a value below 16, as Python `hex()`
renders digits. -/
def hexDigitChar (n : Nat) : Char :=
  if n < 10 then Char.ofNat (48 + n) else Char.ofNat (87 + n)

/-- Digit loop of `natToHexRev`, structurally recursive on a fuel bound so
that it evaluates inside the kernel. -/
def natToHexRevAux : Nat → Nat → List Char
  | 0, _ => []
  | fuel + 1, n =>
      if n = 0 then []
      else hexDigitChar (n % 16) :: natToHexRevAux fuel (n / 16)

/-- Little-endian minimal hex digits of `n` (empty for 0), the recursion
inside Python's `hex()`. -/
def natToHexRev (n : Nat) : List Char :=
  natToHexRevAux n n

theorem natToHexRevAux_zero : ∀ fuel, natToHexRevAux fuel 0 = []
  | 0 => rfl
  | _ + 1 => rfl

theorem natToHexRevAux_fuel :
    ∀ fuel fuel' n, n ≤ fuel → n ≤ fuel' →
      natToHexRevAux fuel n = natToHexRevAux fuel' n := by
  intro fuel
  induction fuel with
  | zero =>
      intro fuel' n h _
      have : n = 0 := by omega
      subst this
      rw [natToHexRevAux_zero, natToHexRevAux_zero]
  | succ fuel ih =>
      intro fuel' n h h'
      by_cases h0 : n = 0
      · subst h0
        rw [natToHexRevAux_zero, natToHexRevAux_zero]
      · obtain ⟨f'', rfl⟩ : ∃ f'', fuel' = f'' + 1 := ⟨fuel' - 1, by omega⟩
        rw [natToHexRevAux, natToHexRevAux, if_neg h0, if_neg h0]
        have hdiv : n / 16 < n := Nat.div_lt_self (Nat.pos_of_ne_zero h0) (by norm_num)
        rw [ih f'' (n / 16) (by omega) (by omega)]

/-- The defining recursion of `natToHexRev`. -/
theorem natToHexRev_eq (n : Nat) :
    natToHexRev n
      = if n = 0 then [] else hexDigitChar (n % 16) :: natToHexRev (n / 16) := by
  by_cases h0 : n = 0
  · subst h0; rfl
  · obtain ⟨m, rfl⟩ : ∃ m, n = m + 1 := ⟨n - 1, by omega⟩
    unfold natToHexRev
    rw [natToHexRevAux, if_neg h0, if_neg h0]
    have hdiv : (m + 1) / 16 < m + 1 := Nat.div_lt_self (by omega) (by norm_num)
    rw [natToHexRevAux_fuel m ((m + 1) / 16) ((m + 1) / 16) (by omega) (by omega)]

/-- `Web3.to_hex(n)` for a non-negative `n`: `0x` plus minimal lowercase
hex digits, `0x0` for zero. -/
def web3_to_hex (n : Nat) : String :=
  "0x" ++ String.mk (if n = 0 then ['0'] else (natToHexRev n).reverse)

/-- Python `str.zfill` on a character list: left-pad with `'0'` to `width`. -/
def zfill (width : Nat) (s : List Char) : List Char :=
  List.replicate (width - s.length) '0' ++ s

/-- `utils.to_entity_key`: render as hex and left-zero-pad the digit part to
64 digits when the rendering is shorter than 66 characters. -/
def to_entity_key (n : Nat) : String :=
  let hex_value := web3_to_hex n
  if hex_value.length < 66 then
    "0x" ++ String.mk (zfill 64 (hex_value.data.drop 2))
  else hex_value

/-- Value of one hex digit character, upper or lower case, as accepted by
Python's `bytes.fromhex`. -/
def hexVal? (c : Char) : Option Nat :=
  if 48 ≤ c.toNat ∧ c.toNat ≤ 57 then some (c.toNat - 48)
  else if 97 ≤ c.toNat ∧ c.toNat ≤ 102 then some (c.toNat - 87)
  else if 65 ≤ c.toNat ∧ c.toNat ≤ 70 then some (c.toNat - 55)
  else none

/-- Python `bytes.fromhex` on a run of hex digits: parse consecutive digit
pairs into bytes; an odd-length or non-hex input fails. -/
def fromHex : List Char → Option (List Nat)
  | [] => some []
  | [_] => none
  | c1 :: c2 :: rest => do
      let d1 ← hexVal? c1
      let d2 ← hexVal? c2
      let bs ← fromHex rest
      pure ((16 * d1 + d2) :: bs)

/-- `utils.entity_key_to_bytes`: strip the `0x` and parse the rest as raw
bytes. -/
def entity_key_to_bytes (entity_key : String) : Option (List Nat) :=
  fromHex (entity_key.data.drop 2)

/-- Big-endian `k`-byte encoding of `n` (the reference the spec compares
`entity_key_to_bytes` against). -/
def beBytes (k n : Nat) : List Nat :=
  (List.range k).map (fun i => n / 256 ^ (k - 1 - i) % 256)

/-- Big-endian `k`-digit hex rendering of `n`, the shape `to_entity_key`'s
digit part takes after padding. -/
def hexBE (k n : Nat) : List Char :=
  (List.range k).map (fun i => hexDigitChar (n / 16 ^ (k - 1 - i) % 16))

theorem hexVal?_hexDigitChar : ∀ d < 16, hexVal? (hexDigitChar d) = some d := by
  decide

/-- Extracting a digit below position `m` commutes with reducing mod `b ^ m`. -/
theorem digit_mod {b : Nat} (n m e : Nat) (h : e < m) (hb : 0 < b) :
    n % b ^ m / b ^ e % b = n / b ^ e % b := by
  conv_rhs => rw [← Nat.div_add_mod n (b ^ m)]
  have hsplit : b ^ m = b ^ e * b ^ (m - e) := by
    rw [← pow_add]; congr 1; omega
  have hdiv :
      (b ^ m * (n / b ^ m) + n % b ^ m) / b ^ e
        = b ^ (m - e) * (n / b ^ m) + n % b ^ m / b ^ e := by
    rw [hsplit, mul_assoc, Nat.mul_add_div (Nat.pos_pow_of_pos e hb)]
  rw [hdiv]
  have hme : b ^ (m - e) = b * b ^ (m - e - 1) := by
    rw [← pow_succ']; congr 1; omega
  rw [hme, mul_assoc, Nat.mul_add_mod]

theorem hexBE_cons (k n : Nat) :
    hexBE (k + 1) n = hexDigitChar (n / 16 ^ k % 16) :: hexBE k n := by
  unfold hexBE
  rw [List.range_succ_eq_map, List.map_cons, List.map_map]
  congr 1
  refine List.map_congr_left (fun i _ => ?_)
  simp only [Function.comp_apply]
  exact congrArg (fun e => hexDigitChar (n / 16 ^ e % 16)) (by omega)

theorem beBytes_cons (k n : Nat) :
    beBytes (k + 1) n = n / 256 ^ k % 256 :: beBytes k n := by
  unfold beBytes
  rw [List.range_succ_eq_map, List.map_cons, List.map_map]
  congr 1
  refine List.map_congr_left (fun i _ => ?_)
  simp only [Function.comp_apply]
  exact congrArg (fun e => n / 256 ^ e % 256) (by omega)

theorem hexBE_pad (m j n : Nat) (h : n < 16 ^ m) :
    hexBE (m + j) n = List.replicate j '0' ++ hexBE m n := by
  induction j with
  | zero => simp
  | succ j ih =>
      have hz : n / 16 ^ (m + j) = 0 :=
        Nat.div_eq_of_lt (lt_of_lt_of_le h (Nat.pow_le_pow_right (by norm_num) (by omega)))
      rw [show m + (j + 1) = (m + j) + 1 by omega, hexBE_cons, ih, hz]
      simp [List.replicate_succ]
      rfl

theorem hexBE_mod (m n : Nat) : hexBE m (n % 16 ^ m) = hexBE m n := by
  unfold hexBE
  refine List.map_congr_left (fun i hi => ?_)
  rw [List.mem_range] at hi
  congr 1
  exact digit_mod n m (m - 1 - i) (by omega) (by norm_num)

theorem beBytes_mod (m n : Nat) : beBytes m (n % 256 ^ m) = beBytes m n := by
  unfold beBytes
  refine List.map_congr_left (fun i hi => ?_)
  rw [List.mem_range] at hi
  exact digit_mod n m (m - 1 - i) (by omega) (by norm_num)

theorem natToHexRev_length_le : ∀ n k, n < 16 ^ k → (natToHexRev n).length ≤ k := by
  intro n
  induction n using Nat.strong_induction_on with
  | _ n ih =>
      intro k hk
      by_cases h0 : n = 0
      · subst h0; rw [natToHexRev_eq]; simp
      · rw [natToHexRev_eq, if_neg h0]; simp only [List.length_cons]
        have hkpos : 0 < k := by
          by_contra hc
          have : k = 0 := by omega
          subst this
          simp at hk
          omega
        have hdiv : n / 16 < 16 ^ (k - 1) := by
          have h16 : 16 ^ k = 16 ^ (k - 1) * 16 := by
            rw [← pow_succ]; congr 1; omega
          exact Nat.div_lt_of_lt_mul (by omega)
        have := ih (n / 16) (Nat.div_lt_self (Nat.pos_of_ne_zero h0) (by norm_num))
          (k - 1) hdiv
        omega

theorem natToHexRev_lt (n : Nat) : n < 16 ^ (natToHexRev n).length := by
  induction n using Nat.strong_induction_on with
  | _ n ih =>
      by_cases h0 : n = 0
      · subst h0; rw [natToHexRev_eq]; simp
      · rw [natToHexRev_eq, if_neg h0]; simp only [List.length_cons]
        have hrec := ih (n / 16) (Nat.div_lt_self (Nat.pos_of_ne_zero h0) (by norm_num))
        have : 16 ^ ((natToHexRev (n / 16)).length + 1)
            = 16 ^ (natToHexRev (n / 16)).length * 16 := by rw [pow_succ]
        rw [this]
        have h1 : n < (n / 16 + 1) * 16 := by omega
        calc n < (n / 16 + 1) * 16 := h1
          _ ≤ 16 ^ (natToHexRev (n / 16)).length * 16 :=
            Nat.mul_le_mul_right 16 (by omega)

theorem natToHexRev_reverse (n : Nat) :
    (natToHexRev n).reverse = hexBE (natToHexRev n).length n := by
  induction n using Nat.strong_induction_on with
  | _ n ih =>
      by_cases h0 : n = 0
      · subst h0; rw [natToHexRev_eq]; simp [hexBE]
      · rw [natToHexRev_eq, if_neg h0]
        simp only [List.reverse_cons, List.length_cons]
        rw [ih (n / 16) (Nat.div_lt_self (Nat.pos_of_ne_zero h0) (by norm_num))]
        unfold hexBE
        rw [List.range_succ, List.map_append]
        congr 1
        · refine List.map_congr_left (fun i hi => ?_)
          rw [List.mem_range] at hi
          congr 1
          rw [Nat.div_div_eq_div_mul, ← pow_succ']
          have he : (natToHexRev (n / 16)).length - 1 - i + 1
              = (natToHexRev (n / 16)).length + 1 - 1 - i := by omega
          rw [he]
        · simp

theorem fromHex_hexBE : ∀ k n, n < 16 ^ (2 * k) →
    fromHex (hexBE (2 * k) n) = some (beBytes k n) := by
  intro k
  induction k with
  | zero =>
      intro n hn
      simp [hexBE, beBytes, fromHex]
  | succ k ih =>
      intro n hn
      rw [show 2 * (k + 1) = (2 * k + 1) + 1 by omega, hexBE_cons, hexBE_cons]
      have hmod : ∀ m : Nat, n / 16 ^ m % 16 < 16 := fun _ => Nat.mod_lt _ (by norm_num)
      rw [fromHex]
      rw [hexVal?_hexDigitChar _ (hmod (2 * k + 1)), hexVal?_hexDigitChar _ (hmod (2 * k))]
      rw [← hexBE_mod (2 * k) n]
      rw [ih (n % 16 ^ (2 * k)) (Nat.mod_lt _ (Nat.pos_pow_of_pos _ (by norm_num)))]
      simp only [Option.bind_eq_bind, Option.some_bind]
      have h256 : (16 : Nat) ^ (2 * k) = 256 ^ k := by
        rw [show (256 : Nat) = 16 ^ 2 by norm_num, ← pow_mul]
      have hbyte : 16 * (n / 16 ^ (2 * k + 1) % 16) + n / 16 ^ (2 * k) % 16
          = n / 256 ^ k % 256 := by
        have hdd : n / 16 ^ (2 * k + 1) = n / 16 ^ (2 * k) / 16 := by
          rw [Nat.div_div_eq_div_mul, ← pow_succ]
        set t := n / 16 ^ (2 * k) with ht
        rw [hdd]
        have h1 : t / 16 % 16 = t % 256 / 16 := by
          rw [Nat.div_mod_eq_mod_mul_div]
        have h2 : t % 16 = t % 256 % 16 :=
          (Nat.mod_mod_of_dvd t (by norm_num)).symm
        rw [h1, h2, Nat.div_add_mod (t % 256) 16, ht, h256]
      rw [beBytes_cons, ← hbyte]
      congr 2
      rw [← beBytes_mod k n, h256]

theorem to_entity_key_data (n : Nat) (h : n < 16 ^ 64) :
    (to_entity_key n).data = '0' :: 'x' :: hexBE 64 n := by
  have hmk : ∀ l : List Char, ("0x" ++ String.mk l).data = '0' :: 'x' :: l := by
    intro l; rfl
  have hlen : ∀ s : String, s.length = s.data.length := fun _ => rfl
  have hzfill : zfill 64 (if n = 0 then ['0'] else (natToHexRev n).reverse)
      = hexBE 64 n := by
    by_cases h0 : n = 0
    · subst h0
      have h1 : hexBE 1 0 = ['0'] := by decide
      have hp := hexBE_pad 1 63 0 (by norm_num)
      rw [show (1 : Nat) + 63 = 64 by norm_num, h1] at hp
      rw [if_pos rfl, hp]
      decide
    · simp only [h0, if_false]
      have hlt : n < 16 ^ (natToHexRev n).length := natToHexRev_lt n
      have hle : (natToHexRev n).length ≤ 64 := natToHexRev_length_le n 64 h
      have := hexBE_pad (natToHexRev n).length (64 - (natToHexRev n).length) n hlt
      rw [show (natToHexRev n).length + (64 - (natToHexRev n).length) = 64 by omega]
        at this
      rw [natToHexRev_reverse n, this]
      unfold zfill
      congr 2
      simp [hexBE]
  have hdata : (web3_to_hex n).data
      = '0' :: 'x' :: (if n = 0 then ['0'] else (natToHexRev n).reverse) := by
    unfold web3_to_hex
    exact hmk _
  have hminlen : (if n = 0 then ['0'] else (natToHexRev n).reverse).length ≤ 64 := by
    by_cases h0 : n = 0
    · simp [h0]
    · simp only [h0, if_false, List.length_reverse]
      exact natToHexRev_length_le n 64 h
  unfold to_entity_key
  by_cases hbr : (web3_to_hex n).length < 66
  · simp only [hbr, if_true]
    rw [hmk]
    rw [hdata]
    simp only [List.drop_succ_cons, List.drop_zero]
    rw [hzfill]
  · simp only [hbr, if_false]
    have hl : (web3_to_hex n).length = 2
        + (if n = 0 then ['0'] else (natToHexRev n).reverse).length := by
      rw [hlen, hdata]; simp; omega
    have heq : (if n = 0 then ['0'] else (natToHexRev n).reverse).length = 64 := by
      omega
    rw [hdata, ← hzfill]
    unfold zfill
    rw [heq]
    simp

end Arkiv

open Arkiv in
/-- Claim C7: for every integer `n` in `[0, 2^256)`, `to_entity_key n` is a
`0x`-prefixed 64-hex-digit string and `entity_key_to_bytes (to_entity_key n)`
is exactly the big-endian 32-byte encoding of `n`. -/
theorem C7_entity_key_roundtrip (n : Nat) (h : n < 2 ^ 256) :
    ((to_entity_key n).data.take 2 = ['0', 'x']
      ∧ (to_entity_key n).length = 66
      ∧ ∀ c ∈ (to_entity_key n).data.drop 2, (hexVal? c).isSome)
    ∧ entity_key_to_bytes (to_entity_key n) = some (beBytes 32 n) := by
  have h16 : n < 16 ^ 64 := by
    have : (16 : Nat) ^ 64 = 2 ^ 256 := by
      rw [show (16 : Nat) = 2 ^ 4 by norm_num, ← pow_mul]
    omega
  have hdata := to_entity_key_data n h16
  refine ⟨⟨?_, ?_, ?_⟩, ?_⟩
  · rw [hdata]; rfl
  · show (to_entity_key n).data.length = 66
    rw [hdata]
    simp [hexBE]
  · intro c hc
    rw [hdata] at hc
    simp only [List.drop_succ_cons, List.drop_zero] at hc
    unfold hexBE at hc
    rw [List.mem_map] at hc
    obtain ⟨i, _, rfl⟩ := hc
    rw [hexVal?_hexDigitChar _ (Nat.mod_lt _ (by norm_num))]
    rfl
  · unfold entity_key_to_bytes
    rw [hdata]
    simp only [List.drop_succ_cons, List.drop_zero]
    exact fromHex_hexBE 32 n (by rw [show 2 * 32 = 64 by norm_num]; exact h16)

open Arkiv in
/-- Witness for C7 at the concrete input `n = 3`. -/
theorem C7_entity_key_roundtrip_witness :
    3 < 2 ^ 256 ∧ entity_key_to_bytes (to_entity_key 3) = some (beBytes 32 3) :=
  ⟨by norm_num, (C7_entity_key_roundtrip 3 (by norm_num)).2⟩

namespace Arkiv

/-! ## Annotations (`types.py`: `Annotations`; `utils.py`: `split_annotations`,
`merge_annotations`)

`Annotations` is `dict[str, str | int]`; a CPython dict is an
insertion-ordered map with pairwise-distinct keys, embedded here as an
association list.  `split_annotations` iterates the dict in order, sending
`int` values to the numeric list and everything else to the string list,
and raises `AnnotationException` at the first negative integer value.
`merge_annotations` starts from an empty dict, walks the string records
then the numeric records, skips keys with the reserved `$` prefix, skips
wrong-typed records with a warning, and assigns everything else. -/

/-- A `str | int` attribute value. -/
inductive AnnotVal where
  | str (s : String)
  | int (i : Int)
deriving DecidableEq, Repr

/-- `isinstance(value, int)` on a `str | int` value. -/
def AnnotVal.isInt : AnnotVal → Bool
  | .int _ => true
  | _ => false

/-- `isinstance(value, str)` on a `str | int` value. -/
def AnnotVal.isStr : AnnotVal → Bool
  | .str _ => true
  | _ => false

/-- `types.Annotations`, a `dict[str, str | int]` in insertion order. -/
abbrev Annotations := List (String × AnnotVal)

/-- Python dict lookup on an association list. -/
def alookup {β : Type} (key : String) : List (String × β) → Option β
  | [] => none
  | (k, v) :: rest => if k = key then some v else alookup key rest

/-- Python dict assignment `d[key] = value`: replace in place when the key
exists, append otherwise. -/
def dictAssign (d : Annotations) (key : String) (value : AnnotVal) : Annotations :=
  if (alookup key d).isSome then
    d.map (fun kv => if kv.1 = key then (key, value) else kv)
  else d ++ [(key, value)]

/-- Message of the `AnnotationException` raised on a negative value. -/
def annotationErrMsg (key : String) (value : Int) : String :=
  "Numeric annotations must be non-negative but found \x27" ++ toString value
    ++ "\x27 for key \x27" ++ key ++ "\x27"

/-- `utils.split_annotations`: partition a mixed attribute map into string
records and numeric records in iteration order, failing at the first
negative integer value. -/
def split_annotations :
    Annotations → Except String (List (String × String) × List (String × Int))
  | [] => .ok ([], [])
  | (key, AnnotVal.int value) :: rest =>
      if value < 0 then .error (annotationErrMsg key value)
      else (split_annotations rest).map (fun sn => (sn.1, (key, value) :: sn.2))
  | (key, AnnotVal.str value) :: rest =>
      (split_annotations rest).map (fun sn => ((key, value) :: sn.1, sn.2))

/-- One of `merge_annotations`' two loops: fold a record list into the
accumulated dict, skipping reserved `$`-prefixed keys and records whose
value fails the loop's `isinstance` check. -/
def mergeFold (typeOk : AnnotVal → Bool) (acc : Annotations)
    (elements : List (String × AnnotVal)) : Annotations :=
  elements.foldl
    (fun d el =>
      if el.1.startsWith "$" then d
      else if typeOk el.2 then dictAssign d el.1 el.2
      else d)
    acc

/-- `utils.merge_annotations`: build a dict from the string records (which
must be `str`-valued) and then the numeric records (which must be
`int`-valued). -/
def merge_annotations (string_records numeric_records : List (String × AnnotVal)) :
    Annotations :=
  mergeFold AnnotVal.isInt (mergeFold AnnotVal.isStr [] string_records)
    numeric_records

/-- The string records produced by `split_annotations`, read back as
key/value records (`.key`/`.value` access on a pair reads its components). -/
def strEntries (l : List (String × String)) : List (String × AnnotVal) :=
  l.map (fun kv => (kv.1, AnnotVal.str kv.2))

/-- The numeric records produced by `split_annotations`, read back as
key/value records. -/
def intEntries (l : List (String × Int)) : List (String × AnnotVal) :=
  l.map (fun kv => (kv.1, AnnotVal.int kv.2))

/-- Reference: string entries of an attribute map, in order. -/
def stringsOf (A : Annotations) : List (String × String) :=
  A.filterMap (fun kv => match kv.2 with
    | AnnotVal.str s => some (kv.1, s)
    | _ => none)

/-- Reference: non-negative numeric entries of an attribute map, in order. -/
def intsOf (A : Annotations) : List (String × Int) :=
  A.filterMap (fun kv => match kv.2 with
    | AnnotVal.int i => some (kv.1, i)
    | _ => none)

theorem split_annotations_ok (A : Annotations)
    (hnn : ∀ kv ∈ A, ∀ i : Int, kv.2 = AnnotVal.int i → 0 ≤ i) :
    split_annotations A = .ok (stringsOf A, intsOf A) := by
  induction A with
  | nil => rfl
  | cons kv rest ih =>
      obtain ⟨k, v⟩ := kv
      have hrest : ∀ kv ∈ rest, ∀ i : Int, kv.2 = AnnotVal.int i → 0 ≤ i :=
        fun kv hkv => hnn kv (List.mem_cons_of_mem _ hkv)
      cases v with
      | str s =>
          rw [split_annotations, ih hrest]
          simp [stringsOf, intsOf, Except.map]
      | int i =>
          have hi : 0 ≤ i := hnn (k, AnnotVal.int i) (List.mem_cons_self _ _) i rfl
          rw [split_annotations, if_neg (by omega), ih hrest]
          simp [stringsOf, intsOf, Except.map]

theorem alookup_append {β : Type} (k : String) (l₁ l₂ : List (String × β)) :
    alookup k (l₁ ++ l₂)
      = match alookup k l₁ with
        | some v => some v
        | none => alookup k l₂ := by
  induction l₁ with
  | nil => simp [alookup]
  | cons kv rest ih =>
      obtain ⟨k0, v0⟩ := kv
      by_cases h : k0 = k
      · simp [alookup, h]
      · simp only [List.cons_append, alookup, if_neg h]
        exact ih

theorem alookup_eq_none {β : Type} {k : String} {l : List (String × β)}
    (h : k ∉ l.map Prod.fst) : alookup k l = none := by
  induction l with
  | nil => rfl
  | cons kv rest ih =>
      obtain ⟨k0, v0⟩ := kv
      simp only [List.map_cons, List.mem_cons, not_or] at h
      rw [alookup, if_neg (fun hc => h.1 hc.symm)]
      exact ih h.2

theorem alookup_of_mem {β : Type} {k : String} {v : β} {l : List (String × β)}
    (hnodup : (l.map Prod.fst).Nodup) (hmem : (k, v) ∈ l) :
    alookup k l = some v := by
  induction l with
  | nil => cases hmem
  | cons kv rest ih =>
      obtain ⟨k0, v0⟩ := kv
      simp only [List.map_cons, List.nodup_cons] at hnodup
      rcases List.mem_cons.mp hmem with heq | htail
      · obtain ⟨rfl, rfl⟩ := Prod.mk.injEq .. ▸ heq
        simp [alookup]
      · have hne : k0 ≠ k := by
          rintro rfl
          exact hnodup.1 (List.mem_map.mpr ⟨(k0, v), htail, rfl⟩)
        rw [alookup, if_neg hne]
        exact ih hnodup.2 htail

theorem mergeFold_fresh (typeOk : AnnotVal → Bool) :
    ∀ (L : List (String × AnnotVal)) (acc : Annotations),
      (L.map Prod.fst).Nodup →
      (∀ kv ∈ L, alookup kv.1 acc = none) →
      mergeFold typeOk acc L
        = acc ++ L.filter (fun kv => !(kv.1.startsWith "$") && typeOk kv.2) := by
  intro L
  induction L with
  | nil => intro acc _ _; simp [mergeFold]
  | cons kv rest ih =>
      intro acc hnodup hfresh
      obtain ⟨k, v⟩ := kv
      simp only [List.map_cons, List.nodup_cons] at hnodup
      by_cases hsys : k.startsWith "$"
      · have : mergeFold typeOk acc ((k, v) :: rest) = mergeFold typeOk acc rest := by
          simp [mergeFold, hsys]
        rw [this, ih acc hnodup.2 (fun kv hkv => hfresh kv (List.mem_cons_of_mem _ hkv))]
        simp [List.filter_cons, hsys]
      · by_cases hty : typeOk v
        · have hassign : dictAssign acc k v = acc ++ [(k, v)] := by
            unfold dictAssign
            rw [hfresh (k, v) (List.mem_cons_self _ _)]
            rfl
          have hstep : mergeFold typeOk acc ((k, v) :: rest)
              = mergeFold typeOk (acc ++ [(k, v)]) rest := by
            simp [mergeFold, hsys, hty, hassign]
          rw [hstep, ih (acc ++ [(k, v)]) hnodup.2 ?fresh]
          · simp [List.filter_cons, hsys, hty]
          case fresh =>
            intro kv hkv
            rw [alookup_append]
            rw [hfresh kv (List.mem_cons_of_mem _ hkv)]
            have hne : k ≠ kv.1 := by
              rintro rfl
              exact hnodup.1 (List.mem_map.mpr ⟨kv, hkv, rfl⟩)
            simp [alookup, hne]
        · have : mergeFold typeOk acc ((k, v) :: rest) = mergeFold typeOk acc rest := by
            simp [mergeFold, hsys, hty]
          rw [this,
            ih acc hnodup.2 (fun kv hkv => hfresh kv (List.mem_cons_of_mem _ hkv))]
          simp [List.filter_cons, hsys, hty]

theorem strEntries_map_fst (l : List (String × String)) :
    (strEntries l).map Prod.fst = l.map Prod.fst := by
  simp [strEntries]

theorem intEntries_map_fst (l : List (String × Int)) :
    (intEntries l).map Prod.fst = l.map Prod.fst := by
  simp [intEntries]

theorem strEntries_isStr {kv : String × AnnotVal} {l : List (String × String)}
    (h : kv ∈ strEntries l) : kv.2.isStr = true := by
  obtain ⟨ab, _, rfl⟩ := List.mem_map.mp h
  rfl

theorem intEntries_isInt {kv : String × AnnotVal} {l : List (String × Int)}
    (h : kv ∈ intEntries l) : kv.2.isInt = true := by
  obtain ⟨ab, _, rfl⟩ := List.mem_map.mp h
  rfl

theorem stringsOf_keys_sublist (A : Annotations) :
    ((stringsOf A).map Prod.fst).Sublist (A.map Prod.fst) := by
  induction A with
  | nil => simp [stringsOf]
  | cons kv rest ih =>
      obtain ⟨k, v⟩ := kv
      cases v with
      | str s => simpa [stringsOf] using ih.cons₂ k
      | int i => simpa [stringsOf] using ih.cons k

theorem intsOf_keys_sublist (A : Annotations) :
    ((intsOf A).map Prod.fst).Sublist (A.map Prod.fst) := by
  induction A with
  | nil => simp [intsOf]
  | cons kv rest ih =>
      obtain ⟨k, v⟩ := kv
      cases v with
      | str s => simpa [intsOf] using ih.cons k
      | int i => simpa [intsOf] using ih.cons₂ k

theorem mem_of_mem_intsOf {k : String} {i : Int} {A : Annotations}
    (h : (k, i) ∈ intsOf A) : (k, AnnotVal.int i) ∈ A := by
  obtain ⟨kv, hkv, heq⟩ := List.mem_filterMap.mp h
  obtain ⟨k0, v0⟩ := kv
  cases v0 with
  | str s => simp at heq
  | int j =>
      simp only [Option.some.injEq, Prod.mk.injEq] at heq
      obtain ⟨rfl, rfl⟩ := heq
      exact hkv

theorem alookup_filter {β : Type} (k : String) (p : String × β → Bool)
    (l : List (String × β)) (h : ∀ kv ∈ l, p kv = false → kv.1 ≠ k) :
    alookup k (l.filter p) = alookup k l := by
  induction l with
  | nil => rfl
  | cons kv rest ih =>
      obtain ⟨k0, v0⟩ := kv
      have hrest := fun kv hkv => h kv (List.mem_cons_of_mem _ hkv)
      by_cases hp : p (k0, v0)
      · rw [List.filter_cons_of_pos hp, alookup, alookup, ih hrest]
      · have hne : k0 ≠ k := h (k0, v0) (List.mem_cons_self _ _) (by simpa using hp)
        rw [List.filter_cons_of_neg (by simpa using hp), alookup, if_neg hne, ih hrest]

theorem alookup_filter_sys {β : Type} {k : String} (p : String × β → Bool)
    (l : List (String × β)) (hk : k.startsWith "$" = true)
    (hp : ∀ kv, p kv = true → kv.1.startsWith "$" = false) :
    alookup k (l.filter p) = none := by
  refine alookup_eq_none (fun hmem => ?_)
  obtain ⟨kv, hkv, rfl⟩ := List.mem_map.mp hmem
  rw [hp kv (List.of_mem_filter hkv)] at hk
  cases hk

theorem strPart_alookup (k : String) :
    ∀ A : Annotations, (A.map Prod.fst).Nodup →
      alookup k (strEntries (stringsOf A))
        = match alookup k A with
          | some (AnnotVal.str s) => some (AnnotVal.str s)
          | _ => none := by
  intro A
  induction A with
  | nil => intro _; rfl
  | cons kv rest ih =>
      intro hnodup
      obtain ⟨k0, v0⟩ := kv
      simp only [List.map_cons, List.nodup_cons] at hnodup
      cases v0 with
      | str s =>
          have hs : strEntries (stringsOf ((k0, AnnotVal.str s) :: rest))
              = (k0, AnnotVal.str s) :: strEntries (stringsOf rest) := by
            simp [stringsOf, strEntries]
          by_cases h : k0 = k
          · subst h
            rw [hs, alookup, if_pos rfl, alookup, if_pos rfl]
          · rw [hs, alookup, if_neg h, alookup, if_neg h, ih hnodup.2]
      | int i =>
          have hs : strEntries (stringsOf ((k0, AnnotVal.int i) :: rest))
              = strEntries (stringsOf rest) := by
            simp [stringsOf, strEntries]
          by_cases h : k0 = k
          · subst h
            rw [hs, alookup, if_pos rfl, ih hnodup.2]
            rw [alookup_eq_none hnodup.1]
          · rw [hs, alookup, if_neg h, ih hnodup.2]

theorem intPart_alookup (k : String) :
    ∀ A : Annotations, (A.map Prod.fst).Nodup →
      alookup k (intEntries (intsOf A))
        = match alookup k A with
          | some (AnnotVal.int i) => some (AnnotVal.int i)
          | _ => none := by
  intro A
  induction A with
  | nil => intro _; rfl
  | cons kv rest ih =>
      intro hnodup
      obtain ⟨k0, v0⟩ := kv
      simp only [List.map_cons, List.nodup_cons] at hnodup
      cases v0 with
      | int i =>
          have hs : intEntries (intsOf ((k0, AnnotVal.int i) :: rest))
              = (k0, AnnotVal.int i) :: intEntries (intsOf rest) := by
            simp [intsOf, intEntries]
          by_cases h : k0 = k
          · subst h
            rw [hs, alookup, if_pos rfl, alookup, if_pos rfl]
          · rw [hs, alookup, if_neg h, alookup, if_neg h, ih hnodup.2]
      | str s =>
          have hs : intEntries (intsOf ((k0, AnnotVal.str s) :: rest))
              = intEntries (intsOf rest) := by
            simp [intsOf, intEntries]
          by_cases h : k0 = k
          · subst h
            rw [hs, alookup, if_pos rfl, ih hnodup.2]
            rw [alookup_eq_none hnodup.1]
          · rw [hs, alookup, if_neg h, ih hnodup.2]

end Arkiv

open Arkiv in
/-- Claim C3: for every attribute map whose integer values are all
non-negative, splitting and then merging yields the same map back, except
that entries whose key starts with the reserved `$` prefix are dropped by
the merge.  The map is a Python dict: insertion-ordered with distinct keys,
and two dicts are equal when they agree on every lookup. -/
theorem C3_split_merge_roundtrip (A : Arkiv.Annotations)
    (hkeys : (A.map Prod.fst).Nodup)
    (hnn : ∀ kv ∈ A, ∀ i : Int, kv.2 = AnnotVal.int i → 0 ≤ i) :
    ∃ s n, split_annotations A = .ok (s, n)
      ∧ ∀ k : String,
          alookup k (merge_annotations (strEntries s) (intEntries n))
            = if k.startsWith "$" then none else alookup k A := by
  refine ⟨stringsOf A, intsOf A, split_annotations_ok A hnn, fun k => ?_⟩
  have hnodupS : ((strEntries (stringsOf A)).map Prod.fst).Nodup := by
    rw [strEntries_map_fst]
    exact (stringsOf_keys_sublist A).nodup hkeys
  have hnodupN : ((intEntries (intsOf A)).map Prod.fst).Nodup := by
    rw [intEntries_map_fst]
    exact (intsOf_keys_sublist A).nodup hkeys
  have hpS : ∀ kv : String × AnnotVal,
      (!(kv.1.startsWith "$") && kv.2.isStr) = true
        → kv.1.startsWith "$" = false := by
    intro kv h
    simp only [Bool.and_eq_true, Bool.not_eq_true'] at h
    exact h.1
  have hpN : ∀ kv : String × AnnotVal,
      (!(kv.1.startsWith "$") && kv.2.isInt) = true
        → kv.1.startsWith "$" = false := by
    intro kv h
    simp only [Bool.and_eq_true, Bool.not_eq_true'] at h
    exact h.1
  have hcondS : ∀ k' : String, ¬k'.startsWith "$" = true →
      ∀ kv' ∈ strEntries (stringsOf A),
        (!(kv'.1.startsWith "$") && kv'.2.isStr) = false → kv'.1 ≠ k' := by
    intro k' hsys kv' hkv' hfalse heq
    have hstr := strEntries_isStr hkv'
    rw [hstr, Bool.and_true, Bool.not_eq_false'] at hfalse
    exact hsys (heq ▸ hfalse)
  have hcondN : ∀ k' : String, ¬k'.startsWith "$" = true →
      ∀ kv' ∈ intEntries (intsOf A),
        (!(kv'.1.startsWith "$") && kv'.2.isInt) = false → kv'.1 ≠ k' := by
    intro k' hsys kv' hkv' hfalse heq
    have hint := intEntries_isInt hkv'
    rw [hint, Bool.and_true, Bool.not_eq_false'] at hfalse
    exact hsys (heq ▸ hfalse)
  have h1 : mergeFold AnnotVal.isStr [] (strEntries (stringsOf A))
      = (strEntries (stringsOf A)).filter
          (fun kv => !(kv.1.startsWith "$") && kv.2.isStr) := by
    simpa using mergeFold_fresh AnnotVal.isStr (strEntries (stringsOf A)) []
      hnodupS (fun _ _ => rfl)
  have hfreshN : ∀ kv ∈ intEntries (intsOf A),
      alookup kv.1 ((strEntries (stringsOf A)).filter
        (fun kv => !(kv.1.startsWith "$") && kv.2.isStr)) = none := by
    intro kv hkv
    by_cases hsys : kv.1.startsWith "$"
    · exact alookup_filter_sys _ _ hsys hpS
    · rw [alookup_filter kv.1 _ _ (hcondS kv.1 hsys), strPart_alookup kv.1 A hkeys]
      obtain ⟨ab, hab, rfl⟩ := List.mem_map.mp hkv
      obtain ⟨k0, i0⟩ := ab
      have hmem : (k0, AnnotVal.int i0) ∈ A := mem_of_mem_intsOf hab
      show (match alookup k0 A with
        | some (AnnotVal.str s) => some (AnnotVal.str s)
        | _ => none) = none
      rw [alookup_of_mem hkeys hmem]
  have h2 : merge_annotations (strEntries (stringsOf A)) (intEntries (intsOf A))
      = (strEntries (stringsOf A)).filter
          (fun kv => !(kv.1.startsWith "$") && kv.2.isStr)
        ++ (intEntries (intsOf A)).filter
          (fun kv => !(kv.1.startsWith "$") && kv.2.isInt) := by
    unfold merge_annotations
    rw [h1]
    exact mergeFold_fresh AnnotVal.isInt (intEntries (intsOf A)) _ hnodupN hfreshN
  rw [h2, alookup_append]
  by_cases hsys : k.startsWith "$"
  · rw [alookup_filter_sys _ _ hsys hpS, alookup_filter_sys _ _ hsys hpN]
    simp [hsys]
  · have hS := alookup_filter k _ (strEntries (stringsOf A)) (hcondS k hsys)
    have hN := alookup_filter k _ (intEntries (intsOf A)) (hcondN k hsys)
    rw [hS, hN, strPart_alookup k A hkeys, intPart_alookup k A hkeys]
    simp only [hsys, if_false]
    rcases halk : alookup k A with _ | v
    · rfl
    · cases v <;> rfl

open Arkiv in
/-- Witness for C3 at a concrete mixed attribute map with a reserved key. -/
theorem C3_split_merge_roundtrip_witness :
    ∃ s n,
      split_annotations
          [("name", AnnotVal.str "a"), ("version", AnnotVal.int 2),
            ("$sys", AnnotVal.str "x")] = .ok (s, n)
        ∧ ∀ k : String,
            alookup k (merge_annotations (strEntries s) (intEntries n))
              = if k.startsWith "$" then none
                else alookup k
                  [("name", AnnotVal.str "a"), ("version", AnnotVal.int 2),
                    ("$sys", AnnotVal.str "x")] :=
  C3_split_merge_roundtrip
    [("name", AnnotVal.str "a"), ("version", AnnotVal.int 2),
      ("$sys", AnnotVal.str "x")] (by decide)
    (by
      intro kv hkv
      simp only [List.mem_cons, List.not_mem_nil, or_false] at hkv
      rcases hkv with rfl | rfl | rfl
      · intro i hi; cases hi
      · intro i hi; cases hi; omega
      · intro i hi; cases hi)


namespace Arkiv

/-! ## Operation batches and the RLP transaction encoder
(`types.py`: `CreateOp` .. `Operations`; `utils.py`: `rlp_encode_transaction`)

`rlp_encode_transaction` first builds a plain Python list-of-lists
`payload` (ints, strs, bytes and nested lists) with one sub-list per
operation family in the fixed order creates, updates, deletes, extensions,
change-owners, then calls `rlp.encode` on it.  Payload construction runs
the comprehensions in that order; `split_annotations` or
`entity_key_to_bytes` raising inside a comprehension aborts the whole
encoder before any bytes exist.  `rlp.encode` infers sedes: `int` becomes
minimal big-endian bytes (rejecting negatives), `str` its UTF-8 bytes,
`bytes` stays, tuples/lists recurse, and every byte string or item-list is
length-prefixed. -/

/-- `types.CreateOp`. -/
structure CreateOp where
  payload : List Nat
  content_type : String
  annotations : Annotations
  btl : Int
deriving Repr

/-- `types.UpdateOp`. -/
structure UpdateOp where
  entity_key : String
  payload : List Nat
  content_type : String
  annotations : Annotations
  btl : Int
deriving Repr

/-- `types.DeleteOp`. -/
structure DeleteOp where
  entity_key : String
deriving Repr

/-- `types.ExtendOp`. -/
structure ExtendOp where
  entity_key : String
  number_of_blocks : Int
deriving Repr

/-- `types.ChangeOwnerOp` (`new_owner` is a checksum address string). -/
structure ChangeOwnerOp where
  entity_key : String
  new_owner : String
deriving Repr

/-- `types.Operations`: a batch with one list per operation family. -/
structure Operations where
  creates : List CreateOp
  updates : List UpdateOp
  deletes : List DeleteOp
  extensions : List ExtendOp
  change_owners : List ChangeOwnerOp
deriving Repr

/-- A Python value as fed to `rlp.encode`: ints, strings, byte strings and
nested lists. -/
inductive PyVal where
  | int (i : Int)
  | str (s : String)
  | bytes (b : List Nat)
  | list (l : List PyVal)
deriving Repr

/-- The wire form of a split string-annotation list: a list of
`[key, value]` pairs. -/
def strAnnotsVal (l : List (String × String)) : PyVal :=
  PyVal.list (l.map (fun kv => PyVal.list [PyVal.str kv.1, PyVal.str kv.2]))

/-- The wire form of a split numeric-annotation list: a list of
`[key, value]` pairs. -/
def numAnnotsVal (l : List (String × Int)) : PyVal :=
  PyVal.list (l.map (fun kv => PyVal.list [PyVal.str kv.1, PyVal.int kv.2]))

/-- Error raised by `entity_key_to_bytes` on a malformed key. -/
def entityKeyValueErr : String := "ValueError: non-hexadecimal entity key"

/-- `entity_key_to_bytes` as used inside the encoder: a malformed key
raises. -/
def entityKeyBytes (entity_key : String) : Except String (List Nat) :=
  match entity_key_to_bytes entity_key with
  | some b => .ok b
  | none => .error entityKeyValueErr

/-- One element of the creates sequence:
`[btl, content_type, payload, string_annots, numeric_annots]`. -/
def createItem (element : CreateOp) : Except String PyVal := do
  let sn ← split_annotations element.annotations
  pure (PyVal.list [PyVal.int element.btl, PyVal.str element.content_type,
    PyVal.bytes element.payload, strAnnotsVal sn.1, numAnnotsVal sn.2])

/-- One element of the updates sequence, in the source's order:
`[entity_key_bytes, content_type, btl, payload, string_annots,
numeric_annots]`. -/
def updateItem (element : UpdateOp) : Except String PyVal := do
  let kb ← entityKeyBytes element.entity_key
  let sn ← split_annotations element.annotations
  pure (PyVal.list [PyVal.bytes kb, PyVal.str element.content_type,
    PyVal.int element.btl, PyVal.bytes element.payload,
    strAnnotsVal sn.1, numAnnotsVal sn.2])

/-- One element of the deletes sequence: the raw key bytes, unwrapped. -/
def deleteItem (element : DeleteOp) : Except String PyVal := do
  let kb ← entityKeyBytes element.entity_key
  pure (PyVal.bytes kb)

/-- One element of the extensions sequence:
`[entity_key_bytes, number_of_blocks]`. -/
def extendItem (element : ExtendOp) : Except String PyVal := do
  let kb ← entityKeyBytes element.entity_key
  pure (PyVal.list [PyVal.bytes kb, PyVal.int element.number_of_blocks])

/-- One element of the change-owners sequence:
`[entity_key_bytes, new_owner]` (the address stays a string). -/
def changeOwnerItem (element : ChangeOwnerOp) : Except String PyVal := do
  let kb ← entityKeyBytes element.entity_key
  pure (PyVal.list [PyVal.bytes kb, PyVal.str element.new_owner])

/-- The `payload` list `rlp_encode_transaction` builds before calling
`rlp.encode`: five sequences in the fixed order creates, updates, deletes,
extensions, change-owners, evaluated in that order. -/
def rlp_payload (tx : Operations) : Except String PyVal := do
  let creates ← tx.creates.mapM createItem
  let updates ← tx.updates.mapM updateItem
  let deletes ← tx.deletes.mapM deleteItem
  let extensions ← tx.extensions.mapM extendItem
  let change_owners ← tx.change_owners.mapM changeOwnerItem
  pure (PyVal.list [PyVal.list creates, PyVal.list updates, PyVal.list deletes,
    PyVal.list extensions, PyVal.list change_owners])

/-- Digit loop of `beMinimal`, structurally recursive on a fuel bound so
that it evaluates inside the kernel. -/
def beMinimalAux : Nat → Nat → List Nat
  | 0, _ => []
  | fuel + 1, n =>
      if n = 0 then []
      else beMinimalAux fuel (n / 256) ++ [n % 256]

/-- Minimal big-endian base-256 digits of `n` (empty for 0), how the `rlp`
library serializes a non-negative integer. -/
def beMinimal (n : Nat) : List Nat :=
  beMinimalAux n n

/-- UTF-8 encoding of one code point. -/
def utf8Char (c : Char) : List Nat :=
  let n := c.toNat
  if n < 128 then [n]
  else if n < 2048 then [192 + n / 64, 128 + n % 64]
  else if n < 65536 then [224 + n / 4096, 128 + n / 64 % 64, 128 + n % 64]
  else [240 + n / 262144, 128 + n / 4096 % 64, 128 + n / 64 % 64, 128 + n % 64]

/-- UTF-8 bytes of a string, how the `rlp` library serializes text. -/
def utf8Bytes (s : String) : List Nat :=
  (s.data.map utf8Char).join

/-- RLP encoding of a byte string: a single byte below `0x80` stands for
itself, anything else is length-prefixed. -/
def encodeBytesRlp (b : List Nat) : List Nat :=
  match b with
  | [x] =>
      if x < 128 then [x]
      else 129 :: [x]
  | _ =>
      if b.length < 56 then (128 + b.length) :: b
      else (183 + (beMinimal b.length).length) :: (beMinimal b.length ++ b)

/-- RLP list framing: prefix the concatenated item encodings with their
length. -/
def encodeListRlp (payload : List Nat) : List Nat :=
  if payload.length < 56 then (192 + payload.length) :: payload
  else (247 + (beMinimal payload.length).length) :: (beMinimal payload.length ++ payload)

/-- Message of the `rlp` library's error on a negative integer. -/
def serializationErrMsg : String :=
  "SerializationError: Cannot serialize negative integers"

mutual

/-- `rlp.encode` with inferred sedes on a Python value. -/
def rlpSerialize : PyVal → Except String (List Nat)
  | .int i =>
      if i < 0 then .error serializationErrMsg
      else .ok (encodeBytesRlp (beMinimal i.toNat))
  | .str s => .ok (encodeBytesRlp (utf8Bytes s))
  | .bytes b => .ok (encodeBytesRlp b)
  | .list l => do
      let payload ← rlpSerializeItems l
      pure (encodeListRlp payload)

/-- Serialize a list's items and concatenate their encodings. -/
def rlpSerializeItems : List PyVal → Except String (List Nat)
  | [] => .ok []
  | x :: xs => do
      let hd ← rlpSerialize x
      let tl ← rlpSerializeItems xs
      pure (hd ++ tl)

end

/-- `utils.rlp_encode_transaction`: build the payload list, then RLP-encode
it; any exception from payload construction propagates unchanged and no
bytes are produced. -/
def rlp_encode_transaction (tx : Operations) : Except String (List Nat) := do
  let payload ← rlp_payload tx
  rlpSerialize payload

end Arkiv

namespace Arkiv

/-- `Except` bind on an error short-circuits. -/
theorem except_bind_error {α β : Type} (e : String) (f : α → Except String β) :
    (Except.error e >>= f) = Except.error e := rfl

/-- `Except` bind on a success applies the continuation. -/
theorem except_bind_ok {α β : Type} (a : α) (f : α → Except String β) :
    (Except.ok a >>= f) = f a := rfl

/-- A successful `mapM` over `Except` is a pointwise, order-preserving run
of the item function. -/
theorem mapM_ok_forall₂ {α β : Type} (f : α → Except String β) :
    ∀ (l : List α) (res : List β), l.mapM f = .ok res →
      List.Forall₂ (fun a b => f a = .ok b) l res := by
  intro l
  induction l with
  | nil =>
      intro res h
      rw [List.mapM_nil] at h
      cases h
      exact List.Forall₂.nil
  | cons x xs ih =>
      intro res h
      rw [List.mapM_cons] at h
      cases hx : f x with
      | error e => rw [hx] at h; cases h
      | ok b =>
          rw [hx, except_bind_ok] at h
          cases hxs : xs.mapM f with
          | error e => rw [hxs] at h; cases h
          | ok bs =>
              rw [hxs, except_bind_ok] at h
              cases h
              exact List.Forall₂.cons hx (ih bs hxs)

/-- Inversion for a successful `updateItem`: the element emitted for an
update has the source's field order. -/
theorem updateItem_ok {u : UpdateOp} {v : PyVal} (h : updateItem u = .ok v) :
    ∃ kb sn, entity_key_to_bytes u.entity_key = some kb
      ∧ split_annotations u.annotations = .ok sn
      ∧ v = PyVal.list [PyVal.bytes kb, PyVal.str u.content_type,
          PyVal.int u.btl, PyVal.bytes u.payload,
          strAnnotsVal sn.1, numAnnotsVal sn.2] := by
  unfold updateItem entityKeyBytes at h
  cases hkb : entity_key_to_bytes u.entity_key with
  | none => rw [hkb] at h; cases h
  | some kb =>
      rw [hkb, except_bind_ok] at h
      cases hsn : split_annotations u.annotations with
      | error e => rw [hsn] at h; cases h
      | ok sn =>
          rw [hsn, except_bind_ok] at h
          cases h
          exact ⟨kb, sn, rfl, rfl, rfl⟩

/-- Inversion of a successful `rlp_payload`: the five top-level sequences
in their fixed order. -/
theorem rlp_payload_ok {tx : Operations} {r : PyVal} (h : rlp_payload tx = .ok r) :
    ∃ cs us ds es os,
      tx.creates.mapM createItem = .ok cs
      ∧ tx.updates.mapM updateItem = .ok us
      ∧ tx.deletes.mapM deleteItem = .ok ds
      ∧ tx.extensions.mapM extendItem = .ok es
      ∧ tx.change_owners.mapM changeOwnerItem = .ok os
      ∧ r = PyVal.list [PyVal.list cs, PyVal.list us, PyVal.list ds,
          PyVal.list es, PyVal.list os] := by
  unfold rlp_payload at h
  cases hcs : tx.creates.mapM createItem with
  | error e => rw [hcs] at h; cases h
  | ok cs =>
  rw [hcs, except_bind_ok] at h
  cases hus : tx.updates.mapM updateItem with
  | error e => rw [hus] at h; cases h
  | ok us =>
  rw [hus, except_bind_ok] at h
  cases hds : tx.deletes.mapM deleteItem with
  | error e => rw [hds] at h; cases h
  | ok ds =>
  rw [hds, except_bind_ok] at h
  cases hes : tx.extensions.mapM extendItem with
  | error e => rw [hes] at h; cases h
  | ok es =>
  rw [hes, except_bind_ok] at h
  cases hos : tx.change_owners.mapM changeOwnerItem with
  | error e => rw [hos] at h; cases h
  | ok os =>
  rw [hos, except_bind_ok] at h
  cases h
  exact ⟨cs, us, ds, es, os, rfl, rfl, rfl, rfl, rfl, rfl⟩

/-- Concrete update operation used against claim C1's field order. -/
def updOrderProbe : UpdateOp :=
  { entity_key := to_entity_key 1, payload := [112], content_type := "ct",
    annotations := [], btl := 7 }

/-- A batch holding only `updOrderProbe`. -/
def opsOrderProbe : Operations :=
  { creates := [], updates := [updOrderProbe], deletes := [], extensions := [],
    change_owners := [] }

/-- Concrete create of spec §8: payload `b"x"`, content type `text/plain`,
no attributes, 10 blocks to live. -/
def createProbe : CreateOp :=
  { payload := [120], content_type := "text/plain", annotations := [],
    btl := 10 }

/-- A batch holding only `createProbe`. -/
def opsSingleCreate : Operations :=
  { creates := [createProbe], updates := [], deletes := [], extensions := [],
    change_owners := [] }

end Arkiv

open Arkiv in
/-- Claim C5: encoding the single-create batch produces the length-prefixed
serialization of five top-level sequences in the order creates, updates,
deletes, extensions, change-owners, the creates sequence holding exactly
the 5-element list `[10, "text/plain", b"x", [], []]` and the other four
sequences empty. -/
theorem C5_single_create_wire :
    rlp_payload opsSingleCreate
      = .ok (PyVal.list [
          PyVal.list [PyVal.list [PyVal.int 10, PyVal.str "text/plain",
            PyVal.bytes [120], PyVal.list [], PyVal.list []]],
          PyVal.list [], PyVal.list [], PyVal.list [], PyVal.list []])
    ∧ rlp_encode_transaction opsSingleCreate
      = .ok [213, 208, 207, 10, 138, 116, 101, 120, 116, 47, 112, 108, 97,
          105, 110, 120, 192, 192, 192, 192, 192, 192] :=
  ⟨rfl, rfl⟩

open Arkiv in
/-- Counterexample to claim C1: for the concrete batch with one update
(`btl` 7, content type `"ct"`), the encoder emits the update element with
`content_type` in position 1 and `btl` in position 2 — not the claimed
order `[entity_key_bytes, blocks_to_live, content_type, payload,
string_attrs, numeric_attrs]`. -/
theorem C1_update_field_order_counterexample :
    rlp_payload opsOrderProbe
      = .ok (PyVal.list [PyVal.list [],
          PyVal.list [PyVal.list [PyVal.bytes (List.replicate 31 0 ++ [1]),
            PyVal.str "ct", PyVal.int 7, PyVal.bytes [112],
            PyVal.list [], PyVal.list []]],
          PyVal.list [], PyVal.list [], PyVal.list []])
    ∧ rlp_payload opsOrderProbe
      ≠ .ok (PyVal.list [PyVal.list [],
          PyVal.list [PyVal.list [PyVal.bytes (List.replicate 31 0 ++ [1]),
            PyVal.int 7, PyVal.str "ct", PyVal.bytes [112],
            PyVal.list [], PyVal.list []]],
          PyVal.list [], PyVal.list [], PyVal.list []]) := by
  have hcode : rlp_payload opsOrderProbe
      = .ok (PyVal.list [PyVal.list [],
          PyVal.list [PyVal.list [PyVal.bytes (List.replicate 31 0 ++ [1]),
            PyVal.str "ct", PyVal.int 7, PyVal.bytes [112],
            PyVal.list [], PyVal.list []]],
          PyVal.list [], PyVal.list [], PyVal.list []]) := by rfl
  refine ⟨hcode, fun h => ?_⟩
  rw [hcode] at h
  simp at h

open Arkiv in
/-- Claim C1 as amended: the encoder emits each update element with the
wire field order `[entity_key_bytes, content_type, blocks_to_live,
payload, string_attrs, numeric_attrs]` (content type before blocks to
live), for every batch whose payload construction succeeds. -/
theorem C1_update_field_order_amended (tx : Operations) (r : PyVal)
    (h : rlp_payload tx = .ok r) :
    ∃ cs us ds es os,
      r = PyVal.list [PyVal.list cs, PyVal.list us, PyVal.list ds,
          PyVal.list es, PyVal.list os]
      ∧ List.Forall₂
          (fun (u : UpdateOp) (v : PyVal) => ∃ kb sn,
            entity_key_to_bytes u.entity_key = some kb
            ∧ split_annotations u.annotations = .ok sn
            ∧ v = PyVal.list [PyVal.bytes kb, PyVal.str u.content_type,
                PyVal.int u.btl, PyVal.bytes u.payload,
                strAnnotsVal sn.1, numAnnotsVal sn.2])
          tx.updates us := by
  obtain ⟨cs, us, ds, es, os, _, hus, _, _, _, hr⟩ := rlp_payload_ok h
  refine ⟨cs, us, ds, es, os, hr, ?_⟩
  have hall := mapM_ok_forall₂ updateItem tx.updates us hus
  exact List.Forall₂.imp (fun a b hone => updateItem_ok hone) hall

open Arkiv in
/-- Witness for the amended C1 at the concrete one-update batch. -/
theorem C1_update_field_order_amended_witness :
    ∃ r, rlp_payload opsOrderProbe = .ok r ∧
      ∃ cs us ds es os,
        r = PyVal.list [PyVal.list cs, PyVal.list us, PyVal.list ds,
            PyVal.list es, PyVal.list os]
        ∧ List.Forall₂
            (fun (u : UpdateOp) (v : PyVal) => ∃ kb sn,
              entity_key_to_bytes u.entity_key = some kb
              ∧ split_annotations u.annotations = .ok sn
              ∧ v = PyVal.list [PyVal.bytes kb, PyVal.str u.content_type,
                  PyVal.int u.btl, PyVal.bytes u.payload,
                  strAnnotsVal sn.1, numAnnotsVal sn.2])
            opsOrderProbe.updates us :=
  ⟨_, rfl, C1_update_field_order_amended opsOrderProbe _ rfl⟩

namespace Arkiv

/-- Unfolding of `List.findSome?` on a cons cell. -/
theorem findSome?_cons_eq {α β : Type} (f : α → Option β) (a : α) (l : List α) :
    (a :: l).findSome? f
      = match f a with
        | some b => some b
        | none => l.findSome? f := rfl

/-- The first negative numeric value of an attribute map, in iteration
order, together with its key. -/
def firstNegAnnot (A : Annotations) : Option (String × Int) :=
  A.findSome? (fun kv => match kv.2 with
    | AnnotVal.int i => if i < 0 then some (kv.1, i) else none
    | _ => none)

/-- The first negative numeric attribute value the encoder would meet: the
creates are encoded before the updates, each annotation map in iteration
order.  (Deletes, extensions and change-owners carry no attribute maps.) -/
def firstNegative (tx : Operations) : Option (String × Int) :=
  match tx.creates.findSome? (fun c => firstNegAnnot c.annotations) with
  | some kv => some kv
  | none => tx.updates.findSome? (fun u => firstNegAnnot u.annotations)

theorem split_annotations_err :
    ∀ (A : Annotations) (k : String) (v : Int),
      firstNegAnnot A = some (k, v) →
      v < 0 ∧ split_annotations A = .error (annotationErrMsg k v) := by
  intro A
  induction A with
  | nil => intro k v h; cases h
  | cons kv rest ih =>
      intro k v h
      obtain ⟨k0, v0⟩ := kv
      cases v0 with
      | int i =>
          rw [firstNegAnnot, findSome?_cons_eq] at h
          by_cases hneg : i < 0
          · simp only [if_pos hneg] at h
            cases h
            exact ⟨hneg, by rw [split_annotations, if_pos hneg]⟩
          · simp only [if_neg hneg] at h
            obtain ⟨hv, hsplit⟩ := ih k v h
            refine ⟨hv, ?_⟩
            rw [split_annotations, if_neg hneg, hsplit]
            rfl
      | str s =>
          rw [firstNegAnnot, findSome?_cons_eq] at h
          obtain ⟨hv, hsplit⟩ := ih k v h
          refine ⟨hv, ?_⟩
          rw [split_annotations, hsplit]
          rfl

theorem firstNegAnnot_none {A : Annotations} (h : firstNegAnnot A = none) :
    ∀ kv ∈ A, ∀ i : Int, kv.2 = AnnotVal.int i → 0 ≤ i := by
  induction A with
  | nil => intro kv hkv; cases hkv
  | cons kv0 rest ih =>
      rw [firstNegAnnot, findSome?_cons_eq] at h
      intro kv hkv i hi
      obtain ⟨k0, v0⟩ := kv0
      rcases List.mem_cons.mp hkv with rfl | htail
      · rw [hi] at h
        simp only at h
        by_cases hneg : i < 0
        · rw [if_pos hneg] at h; cases h
        · omega
      · cases v0 with
        | int j =>
            by_cases hneg : j < 0
            · simp only [if_pos hneg] at h; cases h
            · simp only [if_neg hneg] at h
              exact ih h kv htail i hi
        | str s => exact ih h kv htail i hi

theorem creates_mapM_err :
    ∀ (cs : List CreateOp) (k : String) (v : Int),
      cs.findSome? (fun c => firstNegAnnot c.annotations) = some (k, v) →
      v < 0 ∧ cs.mapM createItem = .error (annotationErrMsg k v) := by
  intro cs
  induction cs with
  | nil => intro k v h; cases h
  | cons c rest ih =>
      intro k v h
      rw [findSome?_cons_eq] at h
      cases hc : firstNegAnnot c.annotations with
      | some kv =>
          rw [hc] at h
          cases h
          obtain ⟨hv, hsplit⟩ := split_annotations_err c.annotations k v hc
          refine ⟨hv, ?_⟩
          rw [List.mapM_cons]
          have hitem : createItem c = .error (annotationErrMsg k v) := by
            unfold createItem
            rw [hsplit]
            rfl
          rw [hitem, except_bind_error]
      | none =>
          rw [hc] at h
          obtain ⟨hv, hrest⟩ := ih k v h
          refine ⟨hv, ?_⟩
          rw [List.mapM_cons]
          obtain ⟨sn, hsn⟩ : ∃ sn, split_annotations c.annotations = .ok sn :=
            ⟨_, split_annotations_ok c.annotations (firstNegAnnot_none hc)⟩
          have hitem : ∃ item, createItem c = .ok item := by
            unfold createItem
            rw [hsn]
            exact ⟨_, rfl⟩
          obtain ⟨item, hitem⟩ := hitem
          rw [hitem, except_bind_ok, hrest, except_bind_error]

theorem creates_mapM_ok :
    ∀ cs : List CreateOp,
      cs.findSome? (fun c => firstNegAnnot c.annotations) = none →
      ∃ r, cs.mapM createItem = .ok r := by
  intro cs
  induction cs with
  | nil => intro _; exact ⟨[], rfl⟩
  | cons c rest ih =>
      intro h
      rw [findSome?_cons_eq] at h
      cases hc : firstNegAnnot c.annotations with
      | some kv => rw [hc] at h; cases h
      | none =>
          rw [hc] at h
          obtain ⟨r, hr⟩ := ih h
          obtain ⟨sn, hsn⟩ : ∃ sn, split_annotations c.annotations = .ok sn :=
            ⟨_, split_annotations_ok c.annotations (firstNegAnnot_none hc)⟩
          have hitem : ∃ item, createItem c = .ok item := by
            unfold createItem
            rw [hsn]
            exact ⟨_, rfl⟩
          obtain ⟨item, hitem⟩ := hitem
          rw [List.mapM_cons, hitem, except_bind_ok, hr, except_bind_ok]
          exact ⟨_, rfl⟩

theorem updates_mapM_err :
    ∀ (us : List UpdateOp),
      (∀ u ∈ us, (entity_key_to_bytes u.entity_key).isSome) →
      ∀ (k : String) (v : Int),
        us.findSome? (fun u => firstNegAnnot u.annotations) = some (k, v) →
        v < 0 ∧ us.mapM updateItem = .error (annotationErrMsg k v) := by
  intro us
  induction us with
  | nil => intro _ k v h; cases h
  | cons u rest ih =>
      intro hkeys k v h
      rw [findSome?_cons_eq] at h
      obtain ⟨kb, hkb⟩ : ∃ kb, entity_key_to_bytes u.entity_key = some kb := by
        have := hkeys u (List.mem_cons_self _ _)
        cases hu : entity_key_to_bytes u.entity_key with
        | none => rw [hu] at this; cases this
        | some kb => exact ⟨kb, rfl⟩
      have hek : entityKeyBytes u.entity_key = .ok kb := by
        unfold entityKeyBytes
        rw [hkb]
      cases hc : firstNegAnnot u.annotations with
      | some kv =>
          rw [hc] at h
          cases h
          obtain ⟨hv, hsplit⟩ := split_annotations_err u.annotations k v hc
          refine ⟨hv, ?_⟩
          rw [List.mapM_cons]
          have hitem : updateItem u = .error (annotationErrMsg k v) := by
            unfold updateItem
            rw [hek, except_bind_ok, hsplit]
            rfl
          rw [hitem, except_bind_error]
      | none =>
          rw [hc] at h
          obtain ⟨hv, hrest⟩ :=
            ih (fun u hu => hkeys u (List.mem_cons_of_mem _ hu)) k v h
          refine ⟨hv, ?_⟩
          rw [List.mapM_cons]
          obtain ⟨sn, hsn⟩ : ∃ sn, split_annotations u.annotations = .ok sn :=
            ⟨_, split_annotations_ok u.annotations (firstNegAnnot_none hc)⟩
          have hitem : ∃ item, updateItem u = .ok item := by
            unfold updateItem
            rw [hek, except_bind_ok, hsn]
            exact ⟨_, rfl⟩
          obtain ⟨item, hitem⟩ := hitem
          rw [hitem, except_bind_ok, hrest, except_bind_error]

end Arkiv

open Arkiv in
/-- Claim C8: when any operation in a batch (with well-formed entity keys)
carries an attribute map with a negative integer value, encoding fails
with the attribute-value error raised at the first such value in encoding
order, the error propagates out of `rlp_encode_transaction` unchanged, and
no bytes are produced (the result is the error, not output). -/
theorem C8_negative_value_fails_fast (tx : Operations)
    (hkeys : ∀ u ∈ tx.updates, (entity_key_to_bytes u.entity_key).isSome)
    (k : String) (v : Int) (hneg : firstNegative tx = some (k, v)) :
    v < 0 ∧ rlp_encode_transaction tx = .error (annotationErrMsg k v) := by
  unfold firstNegative at hneg
  cases hc : tx.creates.findSome? (fun c => firstNegAnnot c.annotations) with
  | some kv =>
      rw [hc] at hneg
      cases hneg
      obtain ⟨hv, herr⟩ := creates_mapM_err tx.creates k v hc
      refine ⟨hv, ?_⟩
      unfold rlp_encode_transaction rlp_payload
      rw [herr, except_bind_error, except_bind_error]
  | none =>
      rw [hc] at hneg
      obtain ⟨csr, hcs⟩ := creates_mapM_ok tx.creates hc
      obtain ⟨hv, herr⟩ := updates_mapM_err tx.updates hkeys k v hneg
      refine ⟨hv, ?_⟩
      unfold rlp_encode_transaction rlp_payload
      rw [hcs, except_bind_ok, herr, except_bind_error, except_bind_error]

namespace Arkiv

/-- Concrete create with the negative numeric attribute of spec §8. -/
def createNegProbe : CreateOp :=
  { payload := [], content_type := "", annotations := [("invalid", AnnotVal.int (-1))],
    btl := 0 }

/-- A batch holding only `createNegProbe`. -/
def opsNegProbe : Operations :=
  { creates := [createNegProbe], updates := [], deletes := [], extensions := [],
    change_owners := [] }

end Arkiv

open Arkiv in
/-- Witness for C8 at the concrete batch carrying the attribute value `-1`. -/
theorem C8_negative_value_fails_fast_witness :
    (-1 : Int) < 0
      ∧ rlp_encode_transaction opsNegProbe
          = .error (annotationErrMsg "invalid" (-1)) :=
  C8_negative_value_fails_fast opsNegProbe
    (by intro u hu; cases hu) "invalid" (-1) rfl

namespace Arkiv

/-! ## Event filter lifecycle (`events.py`: `EventFilter`; `contract.py`:
`EVENTS`)

The blocking `EventFilter` keeps a `_filter` reference (the Web3
`LogFilter`), a `_running` flag and a `_thread` reference.  `start()`
returns immediately when already running, raises `NotImplementedError`
when the event type is not in `EVENTS`, and otherwise creates a fresh log
filter, sets the flag and spawns a fresh polling thread.  `stop()` returns
immediately when not running, otherwise clears the flag and joins/clears
the thread.  `uninstall()` stops first when running and then clears the
`_filter` reference; nothing marks the filter as terminal.  Fresh filter
and thread objects are modelled by drawing identifiers from the `nextId`
supply, so an unchanged `nextId` means no filter or thread was created. -/

/-- `contract.EVENTS`: the supported event types and their contract event
names. -/
def EVENTS : List (String × String) :=
  [("created_legacy", "GolemBaseStorageEntityCreated"),
   ("updated_legacy", "GolemBaseStorageEntityUpdated"),
   ("extended_legacy", "GolemBaseStorageEntityBTLExtended"),
   ("deleted_legacy", "GolemBaseStorageEntityDeleted"),
   ("created", "ArkivEntityCreated"),
   ("updated", "ArkivEntityUpdated"),
   ("extended", "ArkivEntityBTLExtended"),
   ("deleted", "ArkivEntityDeleted"),
   ("expired", "ArkivEntityExpired"),
   ("owner_changed", "ArkivEntityOwnerChanged")]

/-- The mutable state of one `EventFilter` instance. -/
structure EventFilterState where
  event_type : String
  from_block : String
  filterHandle : Option Nat
  running : Bool
  threadHandle : Option Nat
  nextId : Nat
deriving Repr, DecidableEq

namespace EventFilter

/-- `EventFilter.start`: no-op when already running; raise when the event
type is unsupported; otherwise create a fresh log filter, set the running
flag and spawn a fresh polling thread. -/
def start (s : EventFilterState) : Except String EventFilterState :=
  if s.running then .ok s
  else if (alookup s.event_type EVENTS).isSome then
    .ok { s with
      filterHandle := some s.nextId,
      running := true,
      threadHandle := some (s.nextId + 1),
      nextId := s.nextId + 2 }
  else
    .error ("NotImplementedError: Event type " ++ s.event_type
      ++ " not yet implemented")

/-- `EventFilter.stop`: no-op when not running; otherwise clear the running
flag and join and drop the polling thread (the log filter is retained). -/
def stop (s : EventFilterState) : EventFilterState :=
  if !s.running then s
  else { s with running := false, threadHandle := none }

/-- `EventFilter.is_running`. -/
def is_running (s : EventFilterState) : Bool :=
  s.running

/-- `EventFilter.uninstall`: stop first when running, then release the log
filter reference. -/
def uninstall (s : EventFilterState) : EventFilterState :=
  let s' := if s.running then stop s else s
  { s' with filterHandle := none }

/-- `EventFilter.__init__`: fields start cleared; with `auto_start` the
constructor calls `start()` before returning. -/
def init (event_type : String) (auto_start : Bool) : Except String EventFilterState :=
  let s : EventFilterState :=
    { event_type := event_type, from_block := "latest", filterHandle := none,
      running := false, threadHandle := none, nextId := 0 }
  if auto_start then start s else .ok s

end EventFilter

/-- The state `init "created" false` produces. -/
def fsCreatedProbe : EventFilterState :=
  { event_type := "created", from_block := "latest", filterHandle := none,
    running := false, threadHandle := none, nextId := 0 }

/-- The state `start fsCreatedProbe` produces. -/
def fsRunningProbe : EventFilterState :=
  { event_type := "created", from_block := "latest", filterHandle := some 0,
    running := true, threadHandle := some 1, nextId := 2 }

/-- A stopped state with a retained filter handle, as left by `stop`. -/
def fsStoppedProbe : EventFilterState :=
  { event_type := "created", from_block := "latest", filterHandle := some 0,
    running := false, threadHandle := none, nextId := 2 }

end Arkiv

open Arkiv in
/-- Counterexample to claim C4: a freshly constructed `"created"` filter,
started then uninstalled, CAN be started again — `start` succeeds after
`uninstall` and reports running, so the uninstalled state is not terminal. -/
theorem C4_lifecycle_counterexample :
    EventFilter.init "created" false = .ok fsCreatedProbe
    ∧ EventFilter.start fsCreatedProbe = .ok fsRunningProbe
    ∧ (EventFilter.start (EventFilter.uninstall fsRunningProbe)).map
        EventFilterState.running = .ok true := by
  refine ⟨rfl, rfl, rfl⟩

open Arkiv in
/-- Claim C4 as amended: for every supported event type, a freshly
constructed filter (without auto start) reports not-running; after
`start()` it reports running; after `stop()` it reports not-running and
can be `start()`-ed again; `uninstall()` from a running state first stops
the filter and then releases the filter handle — but `start()` still
succeeds after `uninstall()` and re-creates the filter (uninstalled is not
terminal). -/
theorem C4_filter_lifecycle_amended (et : String)
    (h : (alookup et EVENTS).isSome) :
    ∃ s0, EventFilter.init et false = .ok s0
      ∧ EventFilter.is_running s0 = false
      ∧ ∃ s1, EventFilter.start s0 = .ok s1
        ∧ EventFilter.is_running s1 = true
        ∧ EventFilter.is_running (EventFilter.stop s1) = false
        ∧ (∃ s2, EventFilter.start (EventFilter.stop s1) = .ok s2
            ∧ EventFilter.is_running s2 = true)
        ∧ EventFilter.uninstall s1
            = { EventFilter.stop s1 with filterHandle := none }
        ∧ EventFilter.is_running (EventFilter.uninstall s1) = false
        ∧ (EventFilter.uninstall s1).filterHandle = none
        ∧ ∃ s3, EventFilter.start (EventFilter.uninstall s1) = .ok s3
            ∧ EventFilter.is_running s3 = true := by
  have hstart1 : EventFilter.start ⟨et, "latest", none, false, none, 0⟩
      = .ok ⟨et, "latest", some 0, true, some 1, 2⟩ := by
    simp [EventFilter.start, h]
  have hstart2 : EventFilter.start ⟨et, "latest", some 0, false, none, 2⟩
      = .ok ⟨et, "latest", some 2, true, some 3, 4⟩ := by
    simp [EventFilter.start, h]
  have hstart3 : EventFilter.start ⟨et, "latest", none, false, none, 2⟩
      = .ok ⟨et, "latest", some 2, true, some 3, 4⟩ := by
    simp [EventFilter.start, h]
  exact ⟨_, rfl, rfl,
    _, hstart1, rfl, rfl,
    ⟨_, hstart2, rfl⟩, rfl, rfl, rfl,
    _, hstart3, rfl⟩

open Arkiv in
/-- Witness for the amended C4 at the concrete event type `"created"`. -/
theorem C4_filter_lifecycle_amended_witness :
    (alookup "created" EVENTS).isSome = true
    ∧ ∃ s0, EventFilter.init "created" false = .ok s0
      ∧ EventFilter.is_running s0 = false
      ∧ ∃ s1, EventFilter.start s0 = .ok s1
        ∧ EventFilter.is_running s1 = true
        ∧ EventFilter.is_running (EventFilter.stop s1) = false
        ∧ (∃ s2, EventFilter.start (EventFilter.stop s1) = .ok s2
            ∧ EventFilter.is_running s2 = true)
        ∧ EventFilter.uninstall s1
            = { EventFilter.stop s1 with filterHandle := none }
        ∧ EventFilter.is_running (EventFilter.uninstall s1) = false
        ∧ (EventFilter.uninstall s1).filterHandle = none
        ∧ ∃ s3, EventFilter.start (EventFilter.uninstall s1) = .ok s3
            ∧ EventFilter.is_running s3 = true :=
  ⟨by decide, C4_filter_lifecycle_amended "created" (by decide)⟩

open Arkiv in
/-- Claim C10: `start()` on a filter whose running flag is set returns the
state unchanged — in particular the identifier supply does not move, so no
new log filter and no second polling thread are created — and `stop()` on
a filter whose running flag is clear likewise returns the state unchanged. -/
theorem C10_start_stop_idempotent (s : EventFilterState) :
    (s.running = true → EventFilter.start s = .ok s)
    ∧ (s.running = false → EventFilter.stop s = s) := by
  constructor
  · intro h
    unfold EventFilter.start
    rw [if_pos h]
  · intro h
    unfold EventFilter.stop
    rw [h]
    rfl

open Arkiv in
/-- Witness for C10 at a concrete running state and a concrete stopped
state. -/
theorem C10_start_stop_idempotent_witness :
    EventFilter.start fsRunningProbe = .ok fsRunningProbe
    ∧ EventFilter.stop fsStoppedProbe = fsStoppedProbe :=
  ⟨(C10_start_stop_idempotent fsRunningProbe).1 rfl,
    (C10_start_stop_idempotent fsStoppedProbe).2 rfl⟩

namespace Arkiv

/-! ## Log decoding (`utils.py`: `get_event_data`, `to_event`, `to_receipt`;
`contract.py`: event names and `EVENTS_ABI`)

A log entry carries an address, a topic list, the non-indexed data and the
transaction hash.  `get_event_data` raises when the log has no topics,
resolves the first topic through `contract.get_event_by_topic` (which
raises when no event matches), and decodes the log against the matched
descriptor's shape (raising when indexed or data fields are missing).
Event topics are the keccak hashes of the event signatures; here they are
abstract distinct identifiers, one per ABI entry.  `to_event` reads the
typed fields out of the decoded args — a missing key raises `KeyError` —
and produces the typed event, `none` for a recognized legacy event, and
`none` with a `logger.warning` for an unknown event name.  The `List
String` a function returns alongside its result collects exactly its
warning-level log output. -/

/-- One entry of the contract's event signature table. -/
structure EventDesc where
  topic : Nat
  name : String
  indexedArgs : List String
  dataArgs : List String

/-- `contract.CREATED_EVENT` and friends. -/
def CREATED_EVENT : String := "ArkivEntityCreated"

/-- `contract.UPDATED_EVENT`. -/
def UPDATED_EVENT : String := "ArkivEntityUpdated"

/-- `contract.EXPIRED_EVENT`. -/
def EXPIRED_EVENT : String := "ArkivEntityExpired"

/-- `contract.DELETED_EVENT`. -/
def DELETED_EVENT : String := "ArkivEntityDeleted"

/-- `contract.EXTENDED_EVENT`. -/
def EXTENDED_EVENT : String := "ArkivEntityBTLExtended"

/-- `contract.OWNER_CHANGED_EVENT`. -/
def OWNER_CHANGED_EVENT : String := "ArkivEntityOwnerChanged"

/-- `contract.CREATED_EVENT_LEGACY`. -/
def CREATED_EVENT_LEGACY : String := "GolemBaseStorageEntityCreated"

/-- `contract.UPDATED_EVENT_LEGACY`. -/
def UPDATED_EVENT_LEGACY : String := "GolemBaseStorageEntityUpdated"

/-- `contract.EXTENDED_EVENT_LEGACY`. -/
def EXTENDED_EVENT_LEGACY : String := "GolemBaseStorageEntityBTLExtended"

/-- `contract.DELETED_EVENT_LEGACY`. -/
def DELETED_EVENT_LEGACY : String := "GolemBaseStorageEntityDeleted"

/-- `contract.EVENTS_ABI` as descriptors, topics numbered in table order. -/
def arkivEventsAbi : List EventDesc :=
  [⟨1, CREATED_EVENT_LEGACY, ["entityKey"], ["expirationBlock"]⟩,
   ⟨2, UPDATED_EVENT_LEGACY, ["entityKey"], ["expirationBlock"]⟩,
   ⟨3, DELETED_EVENT_LEGACY, ["entityKey"], []⟩,
   ⟨4, EXTENDED_EVENT_LEGACY, ["entityKey"], ["oldExpirationBlock", "newExpirationBlock"]⟩,
   ⟨5, CREATED_EVENT, ["entityKey", "ownerAddress"], ["expirationBlock", "cost"]⟩,
   ⟨6, UPDATED_EVENT, ["entityKey", "ownerAddress"],
     ["oldExpirationBlock", "newExpirationBlock", "cost"]⟩,
   ⟨7, DELETED_EVENT, ["entityKey", "ownerAddress"], []⟩,
   ⟨8, EXTENDED_EVENT, ["entityKey", "ownerAddress"], []⟩,
   ⟨9, EXPIRED_EVENT, ["entityKey", "ownerAddress"],
     ["oldExpirationBlock", "newExpirationBlock", "cost"]⟩,
   ⟨10, OWNER_CHANGED_EVENT, ["entityKey", "oldOwnerAddress", "newOwnerAddress"], []⟩]

/-- A raw log entry (web3 `LogReceipt`): emitting address, topics, decoded
data words, transaction hash bytes. -/
structure Log where
  address : String
  topics : List Nat
  data : List Nat
  transactionHash : List Nat

/-- Decoded event data (web3 `EventData`): the event name and its args. -/
structure EventData where
  event : String
  args : List (String × Nat)

/-- `contract.get_event_by_topic`: raises when no declared event has the
topic. -/
def get_event_by_topic (c : List EventDesc) (t : Nat) : Except String EventDesc :=
  match c.find? (fun d => d.topic = t) with
  | some d => .ok d
  | none => .error "ValueError: could not find event with matching selector"

/-- `event.process_log`: decode the indexed args from `topics[1:]` and the
remaining args from the data section, raising when either is too short. -/
def process_log (d : EventDesc) (log : Log) : Except String EventData :=
  if log.topics.length < d.indexedArgs.length + 1 then
    .error "LogTopicError: expected more log topics"
  else if log.data.length < d.dataArgs.length then
    .error "InsufficientDataBytes: declared fields missing from log data"
  else
    .ok { event := d.name,
          args := d.indexedArgs.zip (log.topics.drop 1) ++ d.dataArgs.zip log.data }

/-- `utils.get_event_data`: raise when the log has no topics, else resolve
the first topic and decode. -/
def get_event_data (c : List EventDesc) (log : Log) : Except String EventData :=
  match log.topics with
  | [] => .error "ValueError: No topic/event data found in log"
  | t :: _ => do
      let ev ← get_event_by_topic c t
      process_log ev log

/-- A typed lifecycle event (`types.py` event dataclasses). -/
inductive ArkivEvent where
  | createE (entity_key : String) (owner_address : Nat)
      (expiration_block : Nat) (cost : Nat)
  | updateE (entity_key : String) (owner_address : Nat)
      (old_expiration_block new_expiration_block : Nat) (cost : Nat)
  | expiryE (entity_key : String) (owner_address : Nat)
  | deleteE (entity_key : String) (owner_address : Nat)
  | extendE (entity_key : String) (owner_address : Nat)
      (old_expiration_block new_expiration_block : Nat) (cost : Nat)
  | changeOwnerE (entity_key : String)
      (old_owner_address new_owner_address : Nat)
deriving Repr, DecidableEq

/-- `isinstance(event, CreateEvent)`. -/
def ArkivEvent.isCreate : ArkivEvent → Bool
  | .createE .. => true
  | _ => false

/-- `isinstance(event, UpdateEvent)`. -/
def ArkivEvent.isUpdate : ArkivEvent → Bool
  | .updateE .. => true
  | _ => false

/-- `isinstance(event, DeleteEvent)`. -/
def ArkivEvent.isDelete : ArkivEvent → Bool
  | .deleteE .. => true
  | _ => false

/-- `isinstance(event, ExtendEvent)`. -/
def ArkivEvent.isExtend : ArkivEvent → Bool
  | .extendE .. => true
  | _ => false

/-- `isinstance(event, ChangeOwnerEvent)`. -/
def ArkivEvent.isChangeOwner : ArkivEvent → Bool
  | .changeOwnerE .. => true
  | _ => false

/-- `event_args[name]`: dict access that raises `KeyError` when absent. -/
def argLookup (args : List (String × Nat)) (name : String) : Except String Nat :=
  match alookup name args with
  | some v => .ok v
  | none => .error ("KeyError: " ++ name)

/-- `utils.to_event`: decode one log into a typed event; legacy events give
`none` (debug log only), an unknown event name gives `none` with a
warning.  The second component is the warning-level log output. -/
def to_event (c : List EventDesc) (log : Log) :
    Except String (Option ArkivEvent) × List String :=
  match get_event_data c log with
  | .error e => (.error e, [])
  | .ok event_data =>
    match argLookup event_data.args "entityKey" with
    | .error e => (.error e, [])
    | .ok ek =>
      let entity_key := to_entity_key ek
      let event_name := event_data.event
      if event_name = CREATED_EVENT then
        ((do
          let owner ← argLookup event_data.args "ownerAddress"
          let exp ← argLookup event_data.args "expirationBlock"
          let cost ← argLookup event_data.args "cost"
          pure (some (ArkivEvent.createE entity_key owner exp cost))), [])
      else if event_name = UPDATED_EVENT then
        ((do
          let owner ← argLookup event_data.args "ownerAddress"
          let oldExp ← argLookup event_data.args "oldExpirationBlock"
          let newExp ← argLookup event_data.args "newExpirationBlock"
          let cost ← argLookup event_data.args "cost"
          pure (some (ArkivEvent.updateE entity_key owner oldExp newExp cost))), [])
      else if event_name = EXPIRED_EVENT then
        ((do
          let owner ← argLookup event_data.args "ownerAddress"
          pure (some (ArkivEvent.expiryE entity_key owner))), [])
      else if event_name = DELETED_EVENT then
        ((do
          let owner ← argLookup event_data.args "ownerAddress"
          pure (some (ArkivEvent.deleteE entity_key owner))), [])
      else if event_name = EXTENDED_EVENT then
        ((do
          let owner ← argLookup event_data.args "ownerAddress"
          let oldExp ← argLookup event_data.args "oldExpirationBlock"
          let newExp ← argLookup event_data.args "newExpirationBlock"
          let cost ← argLookup event_data.args "cost"
          pure (some (ArkivEvent.extendE entity_key owner oldExp newExp cost))), [])
      else if event_name = OWNER_CHANGED_EVENT then
        ((do
          let oldOwner ← argLookup event_data.args "oldOwnerAddress"
          let newOwner ← argLookup event_data.args "newOwnerAddress"
          pure (some (ArkivEvent.changeOwnerE entity_key oldOwner newOwner))), [])
      else if event_name = CREATED_EVENT_LEGACY then (.ok none, [])
      else if event_name = UPDATED_EVENT_LEGACY then (.ok none, [])
      else if event_name = DELETED_EVENT_LEGACY then (.ok none, [])
      else if event_name = EXTENDED_EVENT_LEGACY then (.ok none, [])
      else (.ok none, ["Unknown event type: " ++ event_name])

end Arkiv

namespace Arkiv

/-- Which of the five receipt buckets a decoded event is appended to. -/
inductive BucketTag where
  | createsT
  | updatesT
  | deletesT
  | extensionsT
  | changeOwnersT
deriving Repr, DecidableEq

/-- `types.TransactionReceipt`. -/
structure TransactionReceipt where
  block_number : Nat
  tx_hash : String
  creates : List ArkivEvent
  updates : List ArkivEvent
  extensions : List ArkivEvent
  deletes : List ArkivEvent
  change_owners : List ArkivEvent
deriving Repr, DecidableEq

/-- A raw transaction receipt (web3 `TxReceipt`): the block number may be
missing; the ordered log list. -/
structure TxReceiptIn where
  blockNumber : Option Nat
  logs : List Log

/-- The body of `to_receipt`'s per-log `try` block: decode the log, pick
the bucket by event name with the `isinstance` guard, emit the
warning-level log lines; a raised exception is caught by the surrounding
`except` and yields no append and no further output. -/
def processReceiptLog (c : List EventDesc) (log : Log) :
    Option (BucketTag × ArkivEvent) × List String :=
  match get_event_data c log with
  | .error _ => (none, [])
  | .ok event_data =>
      match to_event c log with
      | (.error _, ws) => (none, ws)
      | (.ok none, ws) => (none, ws)
      | (.ok (some event), ws) =>
          let event_name := event_data.event
          if event_name = CREATED_EVENT then
            if event.isCreate then (some (BucketTag.createsT, event), ws)
            else (none, ws)
          else if event_name = UPDATED_EVENT then
            if event.isUpdate then (some (BucketTag.updatesT, event), ws)
            else (none, ws)
          else if event_name = EXPIRED_EVENT then
            (none, ws ++ ["Not yet implemented: " ++ event_name])
          else if event_name = DELETED_EVENT then
            if event.isDelete then (some (BucketTag.deletesT, event), ws)
            else (none, ws)
          else if event_name = EXTENDED_EVENT then
            if event.isExtend then (some (BucketTag.extensionsT, event), ws)
            else (none, ws)
          else if event_name = OWNER_CHANGED_EVENT then
            if event.isChangeOwner then (some (BucketTag.changeOwnersT, event), ws)
            else (none, ws)
          else if event_name = CREATED_EVENT_LEGACY then (none, ws)
          else if event_name = UPDATED_EVENT_LEGACY then (none, ws)
          else if event_name = DELETED_EVENT_LEGACY then (none, ws)
          else if event_name = EXTENDED_EVENT_LEGACY then (none, ws)
          else (none, ws ++ ["Unknown event type: " ++ event_name])

/-- The events appended to one bucket, in log order. -/
def bucketOf (tag : BucketTag)
    (results : List (Option (BucketTag × ArkivEvent) × List String)) :
    List ArkivEvent :=
  results.filterMap (fun r => match r.1 with
    | some te => if te.1 = tag then some te.2 else none
    | none => none)

/-- `utils.to_receipt`: extract the block number (raising when missing),
then run every log through the guarded per-log body, collecting the five
buckets in log order and the warning-level output; no single bad log
aborts the iteration. -/
def to_receipt (c : List EventDesc) (tx_hash : String) (tx_receipt : TxReceiptIn) :
    Except String (TransactionReceipt × List String) :=
  match tx_receipt.blockNumber with
  | none => .error "ValueError: Transaction receipt missing blockNumber"
  | some block_number =>
      let results := tx_receipt.logs.map (processReceiptLog c)
      .ok ({ block_number := block_number, tx_hash := tx_hash,
             creates := bucketOf BucketTag.createsT results,
             updates := bucketOf BucketTag.updatesT results,
             extensions := bucketOf BucketTag.extensionsT results,
             deletes := bucketOf BucketTag.deletesT results,
             change_owners := bucketOf BucketTag.changeOwnersT results },
           (results.map Prod.snd).join)

/-- Reference: the events `to_event` decodes out of a log list, in order;
logs whose decoding raises, legacy logs and unknown logs contribute
nothing. -/
def decodedEvents (c : List EventDesc) (logs : List Log) : List ArkivEvent :=
  logs.filterMap (fun log => match (to_event c log).1 with
    | .ok (some ev) => some ev
    | _ => none)

/-- The bucket a decoded event belongs to (none for expiry, which
`to_receipt` only logs). -/
def bucketFor : ArkivEvent → Option (BucketTag × ArkivEvent)
  | e@(ArkivEvent.createE ..) => some (BucketTag.createsT, e)
  | e@(ArkivEvent.updateE ..) => some (BucketTag.updatesT, e)
  | ArkivEvent.expiryE .. => none
  | e@(ArkivEvent.deleteE ..) => some (BucketTag.deletesT, e)
  | e@(ArkivEvent.extendE ..) => some (BucketTag.extensionsT, e)
  | e@(ArkivEvent.changeOwnerE ..) => some (BucketTag.changeOwnersT, e)

/-- The contract event name a decoded event came from. -/
def eventNameOf : ArkivEvent → String
  | ArkivEvent.createE .. => CREATED_EVENT
  | ArkivEvent.updateE .. => UPDATED_EVENT
  | ArkivEvent.expiryE .. => EXPIRED_EVENT
  | ArkivEvent.deleteE .. => DELETED_EVENT
  | ArkivEvent.extendE .. => EXTENDED_EVENT
  | ArkivEvent.changeOwnerE .. => OWNER_CHANGED_EVENT

end Arkiv

namespace Arkiv

/-- Inversion of a successful, non-legacy decode: the decoded log's event
name is the one the produced constructor belongs to, and no warning was
logged. -/
theorem to_event_some_shape {c : List EventDesc} {log : Log} {ev : ArkivEvent}
    {ws : List String} (h : to_event c log = (.ok (some ev), ws)) :
    ∃ ed, get_event_data c log = .ok ed ∧ ed.event = eventNameOf ev ∧ ws = [] := by
  unfold to_event at h
  cases hged : get_event_data c log with
  | error e => rw [hged] at h; simp at h
  | ok event_data =>
  rw [hged] at h
  simp only [] at h
  cases hak : argLookup event_data.args "entityKey" with
  | error e => rw [hak] at h; simp at h
  | ok ek =>
  rw [hak] at h
  simp only [] at h
  refine ⟨event_data, rfl, ?_⟩
  by_cases h1 : event_data.event = CREATED_EVENT
  case pos =>
    rw [if_pos h1] at h
    rw [Prod.mk.injEq] at h
    obtain ⟨hv, hw⟩ := h
    cases hx0 : argLookup event_data.args "ownerAddress" with
    | error e => rw [hx0, except_bind_error] at hv; simp at hv
    | ok v0 =>
    rw [hx0, except_bind_ok] at hv
    cases hx1 : argLookup event_data.args "expirationBlock" with
    | error e => rw [hx1, except_bind_error] at hv; simp at hv
    | ok v1 =>
    rw [hx1, except_bind_ok] at hv
    cases hx2 : argLookup event_data.args "cost" with
    | error e => rw [hx2, except_bind_error] at hv; simp at hv
    | ok v2 =>
    rw [hx2, except_bind_ok] at hv
    cases hv
    exact ⟨h1, hw.symm⟩
  case neg =>
  rw [if_neg h1] at h
  by_cases h2 : event_data.event = UPDATED_EVENT
  case pos =>
    rw [if_pos h2] at h
    rw [Prod.mk.injEq] at h
    obtain ⟨hv, hw⟩ := h
    cases hx0 : argLookup event_data.args "ownerAddress" with
    | error e => rw [hx0, except_bind_error] at hv; simp at hv
    | ok v0 =>
    rw [hx0, except_bind_ok] at hv
    cases hx1 : argLookup event_data.args "oldExpirationBlock" with
    | error e => rw [hx1, except_bind_error] at hv; simp at hv
    | ok v1 =>
    rw [hx1, except_bind_ok] at hv
    cases hx2 : argLookup event_data.args "newExpirationBlock" with
    | error e => rw [hx2, except_bind_error] at hv; simp at hv
    | ok v2 =>
    rw [hx2, except_bind_ok] at hv
    cases hx3 : argLookup event_data.args "cost" with
    | error e => rw [hx3, except_bind_error] at hv; simp at hv
    | ok v3 =>
    rw [hx3, except_bind_ok] at hv
    cases hv
    exact ⟨h2, hw.symm⟩
  case neg =>
  rw [if_neg h2] at h
  by_cases h3 : event_data.event = EXPIRED_EVENT
  case pos =>
    rw [if_pos h3] at h
    rw [Prod.mk.injEq] at h
    obtain ⟨hv, hw⟩ := h
    cases hx0 : argLookup event_data.args "ownerAddress" with
    | error e => rw [hx0, except_bind_error] at hv; simp at hv
    | ok v0 =>
    rw [hx0, except_bind_ok] at hv
    cases hv
    exact ⟨h3, hw.symm⟩
  case neg =>
  rw [if_neg h3] at h
  by_cases h4 : event_data.event = DELETED_EVENT
  case pos =>
    rw [if_pos h4] at h
    rw [Prod.mk.injEq] at h
    obtain ⟨hv, hw⟩ := h
    cases hx0 : argLookup event_data.args "ownerAddress" with
    | error e => rw [hx0, except_bind_error] at hv; simp at hv
    | ok v0 =>
    rw [hx0, except_bind_ok] at hv
    cases hv
    exact ⟨h4, hw.symm⟩
  case neg =>
  rw [if_neg h4] at h
  by_cases h5 : event_data.event = EXTENDED_EVENT
  case pos =>
    rw [if_pos h5] at h
    rw [Prod.mk.injEq] at h
    obtain ⟨hv, hw⟩ := h
    cases hx0 : argLookup event_data.args "ownerAddress" with
    | error e => rw [hx0, except_bind_error] at hv; simp at hv
    | ok v0 =>
    rw [hx0, except_bind_ok] at hv
    cases hx1 : argLookup event_data.args "oldExpirationBlock" with
    | error e => rw [hx1, except_bind_error] at hv; simp at hv
    | ok v1 =>
    rw [hx1, except_bind_ok] at hv
    cases hx2 : argLookup event_data.args "newExpirationBlock" with
    | error e => rw [hx2, except_bind_error] at hv; simp at hv
    | ok v2 =>
    rw [hx2, except_bind_ok] at hv
    cases hx3 : argLookup event_data.args "cost" with
    | error e => rw [hx3, except_bind_error] at hv; simp at hv
    | ok v3 =>
    rw [hx3, except_bind_ok] at hv
    cases hv
    exact ⟨h5, hw.symm⟩
  case neg =>
  rw [if_neg h5] at h
  by_cases h6 : event_data.event = OWNER_CHANGED_EVENT
  case pos =>
    rw [if_pos h6] at h
    rw [Prod.mk.injEq] at h
    obtain ⟨hv, hw⟩ := h
    cases hx0 : argLookup event_data.args "oldOwnerAddress" with
    | error e => rw [hx0, except_bind_error] at hv; simp at hv
    | ok v0 =>
    rw [hx0, except_bind_ok] at hv
    cases hx1 : argLookup event_data.args "newOwnerAddress" with
    | error e => rw [hx1, except_bind_error] at hv; simp at hv
    | ok v1 =>
    rw [hx1, except_bind_ok] at hv
    cases hv
    exact ⟨h6, hw.symm⟩
  case neg =>
  rw [if_neg h6] at h
  by_cases h7 : event_data.event = CREATED_EVENT_LEGACY
  case pos => rw [if_pos h7] at h; simp at h
  case neg =>
  rw [if_neg h7] at h
  by_cases h8 : event_data.event = UPDATED_EVENT_LEGACY
  case pos => rw [if_pos h8] at h; simp at h
  case neg =>
  rw [if_neg h8] at h
  by_cases h9 : event_data.event = DELETED_EVENT_LEGACY
  case pos => rw [if_pos h9] at h; simp at h
  case neg =>
  rw [if_neg h9] at h
  by_cases h10 : event_data.event = EXTENDED_EVENT_LEGACY
  case pos => rw [if_pos h10] at h; simp at h
  case neg =>
  rw [if_neg h10] at h
  simp at h

/-- `to_event` output analysis: a failing decode logs nothing; only the
`.ok none` unknown-event path can log a warning. -/
theorem to_event_snd_cases (c : List EventDesc) (log : Log) :
    (to_event c log).2 = [] ∨ (to_event c log).1 = .ok none := by
  unfold to_event
  cases hged : get_event_data c log with
  | error e => exact Or.inl rfl
  | ok event_data =>
  simp only []
  cases hak : argLookup event_data.args "entityKey" with
  | error e => exact Or.inl rfl
  | ok ek =>
  simp only []
  repeat' first | exact Or.inl rfl | split
  all_goals first | exact Or.inl rfl | exact Or.inr rfl

end Arkiv

namespace Arkiv

/-- The bucket decision of the per-log body is determined by the decoded
event alone: a decodable log lands in the bucket of its variant, anything
else contributes nothing. -/
theorem processReceiptLog_fst (c : List EventDesc) (log : Log) :
    (processReceiptLog c log).1
      = match (to_event c log).1 with
        | .ok (some ev) => bucketFor ev
        | _ => none := by
  unfold processReceiptLog
  cases hged : get_event_data c log with
  | error e =>
      have hte : to_event c log = (.error e, []) := by
        unfold to_event
        rw [hged]
      rw [hte]
  | ok event_data =>
      cases hte : to_event c log with
      | mk res ws =>
        cases res with
        | error e => rfl
        | ok oev =>
          cases oev with
          | none => rfl
          | some ev =>
              obtain ⟨ed, hged2, hname, hws⟩ := to_event_some_shape hte
              have hed : event_data = ed := by
                rw [hged] at hged2
                injection hged2
              subst hed
              cases ev <;>
                (simp only [eventNameOf] at hname
                 simp [hname, CREATED_EVENT, UPDATED_EVENT, EXPIRED_EVENT,
                   DELETED_EVENT, EXTENDED_EVENT, OWNER_CHANGED_EVENT,
                   bucketFor, ArkivEvent.isCreate, ArkivEvent.isUpdate,
                   ArkivEvent.isDelete, ArkivEvent.isExtend,
                   ArkivEvent.isChangeOwner])

/-- One bucket of the receipt is the ordered filter of the decodable
events. -/
theorem bucketOf_filter (c : List EventDesc) (tag : BucketTag)
    (p : ArkivEvent → Bool)
    (hp : ∀ ev : ArkivEvent,
      (match bucketFor ev with
        | some te => if te.1 = tag then some te.2 else none
        | none => none) = if p ev then some ev else none) :
    ∀ logs : List Log,
      bucketOf tag (logs.map (processReceiptLog c))
        = (decodedEvents c logs).filter p := by
  intro logs
  induction logs with
  | nil => rfl
  | cons log rest ih =>
      rw [List.map_cons]
      unfold bucketOf at ih ⊢
      unfold decodedEvents at ih ⊢
      rw [List.filterMap_cons, List.filterMap_cons]
      have hfst := processReceiptLog_fst c log
      cases hres : (to_event c log).1 with
      | error e =>
          rw [hres] at hfst
          simp only [hfst]
          rw [ih]
      | ok oev =>
          cases oev with
          | none =>
              rw [hres] at hfst
              simp only [hfst]
              rw [ih]
          | some ev =>
              rw [hres] at hfst
              simp only [hfst, hp ev]
              rw [List.filter_cons]
              cases hpev : p ev
              · simp only [Bool.false_eq_true, if_false]
                exact ih
              · simp only [if_true]
                rw [ih]

end Arkiv

open Arkiv in
/-- Claim C9 as amended: decoding one transaction's log list never aborts
because of a single bad log — given a block number the receipt is always
produced; a log whose first topic matches no known event, a legacy event,
and a malformed individual log are all caught and skipped silently
(without a logged warning), and every remaining decodable log contributes
its event to the receipt's per-variant bucket in original log order. -/
theorem C9_receipt_skip_policy_amended (c : List EventDesc) (txh : String)
    (rcpt : TxReceiptIn) (bn : Nat) (h : rcpt.blockNumber = some bn) :
    ∃ R W, to_receipt c txh rcpt = .ok (R, W)
      ∧ R.block_number = bn
      ∧ R.tx_hash = txh
      ∧ R.creates = (decodedEvents c rcpt.logs).filter ArkivEvent.isCreate
      ∧ R.updates = (decodedEvents c rcpt.logs).filter ArkivEvent.isUpdate
      ∧ R.deletes = (decodedEvents c rcpt.logs).filter ArkivEvent.isDelete
      ∧ R.extensions = (decodedEvents c rcpt.logs).filter ArkivEvent.isExtend
      ∧ R.change_owners
          = (decodedEvents c rcpt.logs).filter ArkivEvent.isChangeOwner
      ∧ ∀ log ∈ rcpt.logs, (to_event c log).1.isOk = false →
          (processReceiptLog c log).2 = [] := by
  refine ⟨⟨bn, txh,
      bucketOf BucketTag.createsT (rcpt.logs.map (processReceiptLog c)),
      bucketOf BucketTag.updatesT (rcpt.logs.map (processReceiptLog c)),
      bucketOf BucketTag.extensionsT (rcpt.logs.map (processReceiptLog c)),
      bucketOf BucketTag.deletesT (rcpt.logs.map (processReceiptLog c)),
      bucketOf BucketTag.changeOwnersT (rcpt.logs.map (processReceiptLog c))⟩,
    ((rcpt.logs.map (processReceiptLog c)).map Prod.snd).join,
    ?_, rfl, rfl, ?_, ?_, ?_, ?_, ?_, ?_⟩
  · unfold to_receipt
    rw [h]
  · exact bucketOf_filter c BucketTag.createsT ArkivEvent.isCreate
      (fun ev => by cases ev <;> rfl) rcpt.logs
  · exact bucketOf_filter c BucketTag.updatesT ArkivEvent.isUpdate
      (fun ev => by cases ev <;> rfl) rcpt.logs
  · exact bucketOf_filter c BucketTag.deletesT ArkivEvent.isDelete
      (fun ev => by cases ev <;> rfl) rcpt.logs
  · exact bucketOf_filter c BucketTag.extensionsT ArkivEvent.isExtend
      (fun ev => by cases ev <;> rfl) rcpt.logs
  · exact bucketOf_filter c BucketTag.changeOwnersT ArkivEvent.isChangeOwner
      (fun ev => by cases ev <;> rfl) rcpt.logs
  · intro log _ hfail
    unfold processReceiptLog
    cases hged : get_event_data c log with
    | error e => rfl
    | ok event_data =>
        cases hte : to_event c log with
        | mk res ws =>
          have hws : ws = [] := by
            rcases to_event_snd_cases c log with hsnd | hfst
            · rw [hte] at hsnd; exact hsnd
            · rw [hte] at hfail hfst
              simp at hfst
              rw [hfst] at hfail
              cases hfail
          cases res with
          | error e => rw [hws]
          | ok oev =>
              rw [hte] at hfail
              simp [Except.isOk, Except.toBool] at hfail

namespace Arkiv

/-- A malformed log: topic 5 names `ArkivEntityCreated`, which declares two
indexed args, but only one further topic is present, so `process_log`
raises. -/
def malformedLogProbe : Log :=
  { address := "0xc", topics := [5, 42], data := [], transactionHash := [7] }

/-- A raw receipt carrying only the malformed log. -/
def rcptProbe : TxReceiptIn :=
  { blockNumber := some 1, logs := [malformedLogProbe] }

/-- The empty receipt the malformed-log transaction decodes to. -/
def emptyReceiptProbe : TransactionReceipt :=
  { block_number := 1, tx_hash := "0xabc", creates := [], updates := [],
    extensions := [], deletes := [], change_owners := [] }

end Arkiv

open Arkiv in
/-- Counterexample to claim C9: the malformed log is caught and skipped and
the receipt is still produced, but the warning output is EMPTY — the code
skips malformed logs silently, not "with a logged warning" as claimed. -/
theorem C9_receipt_skip_policy_counterexample :
    to_receipt arkivEventsAbi "0xabc" rcptProbe = .ok (emptyReceiptProbe, []) := by
  rfl

open Arkiv in
/-- Witness for the amended C9 at the concrete malformed-log receipt. -/
theorem C9_receipt_skip_policy_amended_witness :
    rcptProbe.blockNumber = some 1
    ∧ ∃ R W, to_receipt arkivEventsAbi "0xabc" rcptProbe = .ok (R, W)
      ∧ R.block_number = 1
      ∧ R.tx_hash = "0xabc"
      ∧ R.creates = (decodedEvents arkivEventsAbi rcptProbe.logs).filter
          ArkivEvent.isCreate
      ∧ R.updates = (decodedEvents arkivEventsAbi rcptProbe.logs).filter
          ArkivEvent.isUpdate
      ∧ R.deletes = (decodedEvents arkivEventsAbi rcptProbe.logs).filter
          ArkivEvent.isDelete
      ∧ R.extensions = (decodedEvents arkivEventsAbi rcptProbe.logs).filter
          ArkivEvent.isExtend
      ∧ R.change_owners = (decodedEvents arkivEventsAbi rcptProbe.logs).filter
          ArkivEvent.isChangeOwner
      ∧ ∀ log ∈ rcptProbe.logs, (to_event arkivEventsAbi log).1.isOk = false →
          (processReceiptLog arkivEventsAbi log).2 = [] :=
  ⟨rfl, C9_receipt_skip_policy_amended arkivEventsAbi "0xabc" rcptProbe 1 rfl⟩

namespace Arkiv

/-! ## Watch-engine dispatch (`events_async.py`: `AsyncEventFilter._process_log`
and its poll loop; `events.py`: `EventFilter._trigger_callback`)

`_process_log` runs entirely inside one `try/except`: it skips logs from a
different contract address, decodes the log with `to_event`, extracts the
transaction hash and awaits the user callback; ANY exception — from
decoding or from the callback — is caught and logged with `logger.error`,
so nothing propagates and the poll loop's `for log in logs` moves on to
the next log, and the next poll cycle runs unaffected.  The sync variant's
`_trigger_callback` wraps the callback call in the same catch-and-log. -/

/-- Hex rendering of a byte string, two digits per byte. -/
def bytesToHex (bs : List Nat) : String :=
  String.mk ((bs.map (fun b => [hexDigitChar (b / 16 % 16), hexDigitChar (b % 16)])).join)

/-- Modelled from the spec: `utils.get_tx_hash` is imported by
`events_async.py` but absent from the sources under `src/`; per §4.4 the
dispatch hands the callback the log's transaction hash, `0x`-prefixed (the
sync variant's `_extract_tx_hash` renders exactly this form). -/
def get_tx_hash (log : Log) : String :=
  "0x" ++ bytesToHex log.transactionHash

/-- What one processed log produced: the callback invocations made (the
event and transaction hash handed over) and the `logger.error` lines. -/
structure DispatchOutcome where
  invocations : List (Option ArkivEvent × String)
  errors : List String
deriving Repr

/-- A user callback; a raising callback returns `.error`. -/
def AsyncCallback : Type :=
  Option ArkivEvent → String → Except String Unit

namespace AsyncEventFilter

/-- `AsyncEventFilter._process_log`: address guard, decode, dispatch; the
whole body is inside `try/except Exception`, so the function always
returns and a raise from decode or callback becomes a logged error. -/
def process_log (contractAddress : String) (c : List EventDesc)
    (callback : AsyncCallback) (log : Log) : DispatchOutcome :=
  if log.address ≠ "" ∧ log.address.toLower ≠ contractAddress.toLower then
    { invocations := [], errors := [] }
  else
    match (to_event c log).1 with
    | .error e => { invocations := [], errors := ["Error in async callback: " ++ e] }
    | .ok event =>
        let tx_hash := get_tx_hash log
        match callback event tx_hash with
        | .ok _ => { invocations := [(event, tx_hash)], errors := [] }
        | .error e =>
            { invocations := [(event, tx_hash)],
              errors := ["Error in async callback: " ++ e] }

/-- One poll cycle: process every returned log in order, accumulating
invocations and logged errors. -/
def poll_cycle (contractAddress : String) (c : List EventDesc)
    (callback : AsyncCallback) (logs : List Log) : DispatchOutcome :=
  logs.foldl
    (fun acc log =>
      let out := process_log contractAddress c callback log
      { invocations := acc.invocations ++ out.invocations,
        errors := acc.errors ++ out.errors })
    { invocations := [], errors := [] }

/-- Several consecutive poll cycles. -/
def poll_cycles (contractAddress : String) (c : List EventDesc)
    (callback : AsyncCallback) (batches : List (List Log)) : DispatchOutcome :=
  batches.foldl
    (fun acc logs =>
      let out := poll_cycle contractAddress c callback logs
      { invocations := acc.invocations ++ out.invocations,
        errors := acc.errors ++ out.errors })
    { invocations := [], errors := [] }

end AsyncEventFilter

/-- Reference: the dispatch one log should trigger, independent of what
the callback then does. -/
def dispatchTarget (contractAddress : String) (c : List EventDesc)
    (log : Log) : Option (Option ArkivEvent × String) :=
  if log.address ≠ "" ∧ log.address.toLower ≠ contractAddress.toLower then none
  else
    match (to_event c log).1 with
    | .error _ => none
    | .ok event => some (event, get_tx_hash log)

theorem process_log_invocations (addr : String) (c : List EventDesc)
    (cb : AsyncCallback) (log : Log) :
    (AsyncEventFilter.process_log addr c cb log).invocations
      = (dispatchTarget addr c log).toList := by
  unfold AsyncEventFilter.process_log dispatchTarget
  split
  · rfl
  · cases (to_event c log).1 with
    | error e => rfl
    | ok event =>
        simp only []
        cases hcb : cb event (get_tx_hash log) with
        | ok u => rfl
        | error e => rfl

theorem poll_cycle_invocations (addr : String) (c : List EventDesc)
    (cb : AsyncCallback) :
    ∀ (logs : List Log) (acc : DispatchOutcome),
      (logs.foldl
        (fun acc log =>
          let out := AsyncEventFilter.process_log addr c cb log
          { invocations := acc.invocations ++ out.invocations,
            errors := acc.errors ++ out.errors })
        acc).invocations
      = acc.invocations ++ logs.filterMap (fun log => dispatchTarget addr c log) := by
  intro logs
  induction logs with
  | nil => intro acc; simp
  | cons log rest ih =>
      intro acc
      rw [List.foldl_cons, List.filterMap_cons, ih]
      simp only []
      rw [process_log_invocations]
      cases hdt : dispatchTarget addr c log with
      | none => simp [Option.toList]
      | some t => simp [Option.toList]

end Arkiv

open Arkiv in
/-- Claim C6: callback exceptions are caught and logged at the filter
level and never propagate or stop the poll loop — across any sequence of
poll cycles, the events dispatched to the callback are exactly the
decodable logs in order, independent of which callback invocations raise;
and a raising invocation is logged as an error for that dispatch alone. -/
theorem C6_callback_exception_isolation (addr : String) (c : List EventDesc)
    (cb : AsyncCallback) (batches : List (List Log)) :
    (AsyncEventFilter.poll_cycles addr c cb batches).invocations
      = (batches.map (fun logs =>
          logs.filterMap (fun log => dispatchTarget addr c log))).join
    ∧ ∀ (log : Log) (ev : Option ArkivEvent) (tx : String) (e : String),
        dispatchTarget addr c log = some (ev, tx) →
        cb ev tx = .error e →
        (AsyncEventFilter.process_log addr c cb log).errors
          = ["Error in async callback: " ++ e] := by
  constructor
  · have hgen : ∀ (batches : List (List Log)) (acc : DispatchOutcome),
        (batches.foldl
          (fun acc logs =>
            let out := AsyncEventFilter.poll_cycle addr c cb logs
            { invocations := acc.invocations ++ out.invocations,
              errors := acc.errors ++ out.errors })
          acc).invocations
        = acc.invocations ++ (batches.map (fun logs =>
            logs.filterMap (fun log => dispatchTarget addr c log))).join := by
      intro batches
      induction batches with
      | nil => intro acc; simp
      | cons logs rest ih =>
          intro acc
          rw [List.foldl_cons, List.map_cons, List.join, ih]
          have hcycle : (AsyncEventFilter.poll_cycle addr c cb logs).invocations
              = logs.filterMap (fun log => dispatchTarget addr c log) := by
            unfold AsyncEventFilter.poll_cycle
            rw [poll_cycle_invocations]
            rfl
          simp [hcycle]
    exact hgen batches { invocations := [], errors := [] }
  · intro log ev tx e hdt hcb
    unfold dispatchTarget at hdt
    unfold AsyncEventFilter.process_log
    split at hdt
    · cases hdt
    · rename_i hcond
      rw [if_neg hcond]
      cases hres : (to_event c log).1 with
      | error e2 => rw [hres] at hdt; cases hdt
      | ok event =>
          rw [hres] at hdt
          simp only [Option.some.injEq, Prod.mk.injEq] at hdt
          obtain ⟨rfl, rfl⟩ := hdt
          simp only []
          rw [hcb]

namespace Arkiv

/-- A callback that raises on every invocation. -/
def cbRaiseProbe : AsyncCallback := fun _ _ => .error "boom"

/-- A decodable `ArkivEntityDeleted` log (no emitting-address recorded). -/
def logDeleteProbe : Log :=
  { address := "", topics := [7, 9, 11], data := [], transactionHash := [7] }

end Arkiv

open Arkiv in
/-- Witness for C6 at a concrete raising callback and decodable log. -/
theorem C6_callback_exception_isolation_witness :
    dispatchTarget "0xA" arkivEventsAbi logDeleteProbe
        = some (some (ArkivEvent.deleteE (to_entity_key 9) 11), "0x07")
    ∧ cbRaiseProbe (some (ArkivEvent.deleteE (to_entity_key 9) 11)) "0x07"
        = .error "boom"
    ∧ (AsyncEventFilter.process_log "0xA" arkivEventsAbi cbRaiseProbe
        logDeleteProbe).errors = ["Error in async callback: boom"] :=
  ⟨rfl, rfl,
    (C6_callback_exception_isolation "0xA" arkivEventsAbi cbRaiseProbe []).2
      logDeleteProbe _ _ "boom" rfl rfl⟩

namespace Arkiv

/-! ## Query pagination (`query.py`: `QueryIterator`; `types.py`:
`QueryResult`)

`QueryResult` is a frozen dataclass with the fields `entities`,
`block_number` and `cursor` (`has_more()` tests `cursor is not None`).
`QueryIterator.__next__` lazily fetches the first page, yields from the
page buffer, and on exhaustion — when the page has more — reads
`self._current_result.next_cursor` to fetch the next page.  A frozen
dataclass has no attribute `next_cursor`, so that read raises
`AttributeError`; attribute access is modelled by `QueryResult.getattr`
over the dataclass's declared fields.  The backend
(`client.arkiv.query_entities`) is the external paged-query collaborator;
each call it receives is recorded as a `FetchCall`.  The source's
`return self.__next__()` self-call is translated with an explicit fuel
argument; running out of fuel yields a distinguishable `RecursionError`,
so any other outcome is genuine. -/

/-- `types.Entity` (all fields optional except the bitmask, which defaults
to ALL = 63). -/
structure Entity where
  entity_key : Option String := none
  fields : Nat := 63
  owner : Option String := none
  created_at_block : Option Nat := none
  last_modified_at_block : Option Nat := none
  expires_at_block : Option Nat := none
  transaction_index : Option Nat := none
  operation_index : Option Nat := none
  payload : Option (List Nat) := none
  content_type : Option String := none
  annotations : Option Annotations := none
deriving Repr, DecidableEq

/-- `types.QueryResult`. -/
structure QueryResult where
  entities : List Entity
  block_number : Nat
  cursor : Option String := none
deriving Repr, DecidableEq

/-- `QueryResult.has_more`: a cursor is present. -/
def QueryResult.has_more (r : QueryResult) : Bool :=
  r.cursor.isSome

/-- A value read off a `QueryResult` attribute. -/
inductive QueryResultAttr where
  | entitiesA (entities : List Entity)
  | blockNumberA (block_number : Nat)
  | cursorA (cursor : Option String)
deriving Repr, DecidableEq

/-- Python attribute lookup on the frozen dataclass: exactly the three
declared fields resolve; anything else is an `AttributeError`. -/
def QueryResult.getattr (r : QueryResult) : String → Option QueryResultAttr
  | "entities" => some (QueryResultAttr.entitiesA r.entities)
  | "block_number" => some (QueryResultAttr.blockNumberA r.block_number)
  | "cursor" => some (QueryResultAttr.cursorA r.cursor)
  | _ => none

/-- The mutable state of one `QueryIterator`. -/
structure QueryIteratorState where
  query : String
  limit : Nat
  at_block : String
  current_result : Option QueryResult
  current_index : Nat
  exhausted : Bool
deriving Repr, DecidableEq

/-- The paged-query backend (`client.arkiv.query_entities`), called either
with the query/limit/at_block of the first page or with a continuation
cursor. -/
structure QueryBackend where
  firstPage : String → Nat → String → QueryResult
  cursorPage : String → QueryResult

/-- One call made to the backend. -/
inductive FetchCall where
  | firstF (query : String) (limit : Nat) (at_block : String)
  | cursorF (cursor : String)
deriving Repr, DecidableEq

/-- The exception `self._current_result.next_cursor` raises. -/
def nextCursorAttrErr : String :=
  "AttributeError: \x27QueryResult\x27 object has no attribute \x27next_cursor\x27"

namespace QueryIterator

/-- `QueryIterator.__init__`. -/
def initState (query : String) (limit : Nat) (at_block : String) :
    QueryIteratorState :=
  { query := query, limit := limit, at_block := at_block,
    current_result := none, current_index := 0, exhausted := false }

/-- `QueryIterator.__next__`: `.ok (some e)` yields an entity, `.ok none`
is `StopIteration`, `.error` is a raised exception; the third component
records the backend calls made. -/
def next (b : QueryBackend) :
    Nat → QueryIteratorState →
      Except String (Option Entity) × QueryIteratorState × List FetchCall
  | 0, s => (.error "RecursionError: maximum recursion depth exceeded", s, [])
  | fuel + 1, s0 =>
      let (s1, f1) :=
        match s0.current_result with
        | none =>
            ({ s0 with
                current_result := some (b.firstPage s0.query s0.limit s0.at_block) },
             [FetchCall.firstF s0.query s0.limit s0.at_block])
        | some _ => (s0, [])
      match s1.current_result with
      | none => (.error "unreachable: first page just fetched", s1, f1)
      | some r =>
          if h : s1.current_index < r.entities.length then
            (.ok (some (r.entities.get ⟨s1.current_index, h⟩)),
             { s1 with current_index := s1.current_index + 1 }, f1)
          else if r.has_more && !s1.exhausted then
            match r.getattr "next_cursor" with
            | none => (.error nextCursorAttrErr, s1, f1)
            | some (QueryResultAttr.cursorA (some cursor)) =>
                let r2 := b.cursorPage cursor
                let s2 := { s1 with current_result := some r2, current_index := 0 }
                if r2.entities.length = 0 then
                  (.ok none, { s2 with exhausted := true },
                   f1 ++ [FetchCall.cursorF cursor])
                else
                  match next b fuel s2 with
                  | (res, s3, f3) => (res, s3, f1 ++ [FetchCall.cursorF cursor] ++ f3)
            | some _ => (.error "TypeError: not a cursor", s1, f1)
          else (.ok none, s1, f1)

/-- Drive the iterator to completion: collect the yielded entities, the
final outcome (`.ok ()` for a clean `StopIteration`, `.error` for a raised
exception) and every backend call in order. -/
def run (b : QueryBackend) :
    Nat → QueryIteratorState → List Entity × Except String Unit × List FetchCall
  | 0, _ => ([], .error "RecursionError: maximum recursion depth exceeded", [])
  | fuel + 1, s =>
      match next b (fuel + 1) s with
      | (.error e, _, fs) => ([], .error e, fs)
      | (.ok none, _, fs) => ([], .ok (), fs)
      | (.ok (some ent), s2, fs) =>
          match run b fuel s2 with
          | (es, out, fs2) => (ent :: es, out, fs ++ fs2)

end QueryIterator

/-- The `i`-th synthetic query entity. -/
def entProbe (i : Nat) : Entity :=
  { entity_key := some (to_entity_key i) }

/-- A backend holding 25 matching entities pinned at block 77, paged
10/10/5 through cursors `c1` and `c2`. -/
def backend25 : QueryBackend :=
  { firstPage := fun _ _ _ =>
      { entities := (List.range 10).map entProbe, block_number := 77,
        cursor := some "c1" },
    cursorPage := fun cursor =>
      if cursor = "c1" then
        { entities := (List.range 10).map (fun i => entProbe (10 + i)),
          block_number := 77, cursor := some "c2" }
      else if cursor = "c2" then
        { entities := (List.range 5).map (fun i => entProbe (20 + i)),
          block_number := 77, cursor := none }
      else { entities := [], block_number := 77, cursor := none } }

end Arkiv

open Arkiv in
/-- Claim C2 evaluated on the code (code bug): against the 25-entity
backend with page size 10, the iterator yields only the 10 entities of the
first page and then raises `AttributeError` — `__next__` reads
`next_cursor`, an attribute `QueryResult` does not declare (its field is
`cursor`) — after exactly one backend fetch, instead of yielding 25
entities across 3 fetches as the claim states. -/
theorem C2_next_cursor_attribute_evaluation :
    QueryIterator.run backend25 40 (QueryIterator.initState "q" 10 "latest")
      = ((List.range 10).map entProbe,
         .error nextCursorAttrErr,
         [FetchCall.firstF "q" 10 "latest"]) := by
  rfl
